import Mathlib

/-!
# Verification of dynamd (dwm-style tiling window manager)

Shallow embedding of the state-machine core of `dynamd.c` together with
proofs of the specification claims.

Modelling conventions, used uniformly below:

* C `unsigned int` bitmasks become `Nat` with `&&&`, `|||`, `^^^`, `<<<`;
  where 32-bit wraparound matters it is written explicitly `% 2 ^ 32`.
* C `int` quantities (pixel coordinates, sizes) become `Int`.
* C `float`/`double` values (`mfact`, the division in `getfacts`, aspect
  ratios) are modelled as exact rationals `ℚ`; a float-to-int conversion
  is truncation toward zero (`ratTrunc`).
* Calls whose effect is entirely on the X server or the bar renderer
  (drawing, `XChangeProperty` of titles, `focus`/`restack` input-focus
  traffic, bar geometry) are outside the modelled state and are noted in
  comments at their call sites.  X state that the claims mention
  (map/unmap, WM_STATE, window geometry) *is* modelled, in `XSrv`.
* Intrusive `Client*` pointers become stable numeric ids into a record
  table, per-monitor lists become `List` of ids or of records.
-/

set_option maxHeartbeats 1000000
set_option linter.unusedVariables false

namespace Dynamd

/-- Number of entries of the `tags[]` array in config.h (25). -/
def numTags : Nat := 25

/-- `#define TAGMASK ((1 << LENGTH(tags)) - 1)`. -/
def TAGMASK : Nat := (1 <<< numTags) - 1

/-- The value of the C expression `~0` at type `unsigned int`. -/
def uintMax : Nat := 2 ^ 32 - 1

/-- Truncation toward zero, the C semantics of assigning a float to an int. -/
def ratTrunc (q : ℚ) : Int := if q < 0 then -⌊-q⌋ else ⌊q⌋

/-- Structural worker for `lsb`; the first argument is fuel, always called
with at least `n` (the recursion depth is at most `log2 n`). -/
def lsbF : Nat → Nat → Nat
  | 0, _ => 0
  | fuel + 1, n =>
    if n = 0 then 0 else if n % 2 = 1 then 0 else lsbF fuel (n / 2) + 1

/-- Index of the lowest set bit: the loop `for (i = 0; !(ui & 1 << i); i++)`
in `view`, and `ffs(x) - 1` in `organizetags`.  Total function; the value at
0 is irrelevant (the C loop would not terminate / `ffs` returns 0 there). -/
def lsb (n : Nat) : Nat := lsbF n n

theorem lsbF_congr : ∀ f1 f2 n, n ≤ f1 → n ≤ f2 → lsbF f1 n = lsbF f2 n := by
  intro f1
  induction f1 with
  | zero =>
    intro f2 n h1 h2
    have hn : n = 0 := by omega
    subst hn
    cases f2 <;> rfl
  | succ a ih =>
    intro f2 n h1 h2
    cases f2 with
    | zero =>
      have hn : n = 0 := by omega
      subst hn
      rfl
    | succ b =>
      show (if n = 0 then 0 else if n % 2 = 1 then 0 else lsbF a (n / 2) + 1) =
        (if n = 0 then 0 else if n % 2 = 1 then 0 else lsbF b (n / 2) + 1)
      by_cases hn : n = 0
      · rw [if_pos hn, if_pos hn]
      · rw [if_neg hn, if_neg hn]
        by_cases ho : n % 2 = 1
        · rw [if_pos ho, if_pos ho]
        · rw [if_neg ho, if_neg ho, ih b (n / 2) (by omega) (by omega)]

/-- The recursive unfolding of `lsb`. -/
theorem lsb_unfold (n : Nat) :
    lsb n = if n = 0 then 0 else if n % 2 = 1 then 0 else lsb (n / 2) + 1 := by
  by_cases hn : n = 0
  · subst hn
    rfl
  · obtain ⟨k, rfl⟩ : ∃ k, n = k + 1 := ⟨n - 1, by omega⟩
    show (if k + 1 = 0 then 0 else if (k + 1) % 2 = 1 then 0
        else lsbF k ((k + 1) / 2) + 1) = _
    rw [if_neg hn, if_neg hn]
    by_cases ho : (k + 1) % 2 = 1
    · rw [if_pos ho, if_pos ho]
    · rw [if_neg ho, if_neg ho]
      unfold lsb
      rw [lsbF_congr k ((k + 1) / 2) ((k + 1) / 2) (by omega) le_rfl]

/-- Read slot `b` of a two-slot array such as `tagset[2]` or `lt[2]`
(`b = false` is index 0). -/
def getSlot (p : Nat × Nat) (b : Bool) : Nat := if b then p.2 else p.1

/-- Write slot `b` of a two-slot array. -/
def setSlot (p : Nat × Nat) (b : Bool) (v : Nat) : Nat × Nat :=
  if b then (p.1, v) else (v, p.2)

/-!
## Per-tag sticky state and `view` (C1)

The fields of `Monitor` and `struct Pertag` that `view` reads or writes.
Layout pointers (`lt[2]`, `ltidxs`) are modelled as numeric layout ids;
the two-element arrays `tagset[2]`, `lt[2]` as pairs indexed by `Bool`
(`seltags`, `sellt` only ever hold 0 or 1 in the C code, which maintains
them by `^= 1`).
-/

/-- `struct Pertag`. -/
structure Pertag where
  curtag : Nat
  prevtag : Nat
  nmasters : Nat → Nat
  mfacts : Nat → ℚ
  sellts : Nat → Bool
  ltidxs : Nat → Nat × Nat
  showbars : Nat → Bool

/-- The slice of `struct Monitor` that `view`/`togglebar` touch. -/
structure VMon where
  seltags : Bool
  tagset : Nat × Nat
  nmaster : Nat
  mfact : ℚ
  sellt : Bool
  lt : Nat × Nat
  showbar : Bool
  pertag : Pertag

/-- `togglebar` from dynamd.c, restricted to the modelled fields: flips
`showbar` and records it in `pertag->showbars[curtag]`.  The bar-window
geometry calls (`updatebarpos`, `XMoveResizeWindow`, `arrange`) act only on
display-level state outside this model. -/
def togglebar (m : VMon) : VMon :=
  let sb := !m.showbar
  { m with showbar := sb,
           pertag := { m.pertag with
             showbars := Function.update m.pertag.showbars m.pertag.curtag sb } }

/-- `view` from dynamd.c (lines 3377-3415).  `ui` is `arg->ui`.  The final
`focus(NULL); arrange(selmon)` act on display-level focus/geometry state
outside this model. -/
def view (ui : Nat) (m : VMon) : VMon :=
  if ui &&& TAGMASK = getSlot m.tagset m.seltags then m
  else
    let st := !m.seltags          -- selmon->seltags ^= 1
    let m1 : VMon :=
      if ui &&& TAGMASK ≠ 0 then
        { m with
          seltags := st,
          tagset := setSlot m.tagset st (ui &&& TAGMASK),
          pertag := { m.pertag with
            prevtag := m.pertag.curtag,
            curtag := if ui = uintMax then 0 else lsb ui + 1 } }
      else
        { m with
          seltags := st,
          pertag := { m.pertag with
            prevtag := m.pertag.curtag,
            curtag := m.pertag.prevtag } }
    let ct := m1.pertag.curtag
    let m2 : VMon :=
      { m1 with
        nmaster := m1.pertag.nmasters ct,
        mfact := m1.pertag.mfacts ct,
        sellt := m1.pertag.sellts ct }
    let m3 : VMon :=
      { m2 with
        lt := setSlot (setSlot m2.lt m2.sellt (getSlot (m2.pertag.ltidxs ct) m2.sellt))
                (!m2.sellt) (getSlot (m2.pertag.ltidxs ct) (!m2.sellt)) }
    if m3.showbar ≠ m3.pertag.showbars ct then togglebar m3 else m3

/-- `view` leaves `seltags`, the stored tagsets, `curtag` and `prevtag`
untouched by everything after the branch on `arg->ui & TAGMASK`. -/
theorem view_core_fields (ui : Nat) (m : VMon)
    (hne : ui &&& TAGMASK ≠ getSlot m.tagset m.seltags) :
    (view ui m).seltags = !m.seltags ∧
    ((view ui m).tagset =
      (if ui &&& TAGMASK ≠ 0 then setSlot m.tagset (!m.seltags) (ui &&& TAGMASK)
       else m.tagset)) ∧
    ((view ui m).pertag.prevtag = m.pertag.curtag) ∧
    ((view ui m).pertag.curtag =
      (if ui &&& TAGMASK ≠ 0 then (if ui = uintMax then 0 else lsb ui + 1)
       else m.pertag.prevtag)) := by
  unfold view
  rw [if_neg hne]
  by_cases h0 : ui &&& TAGMASK ≠ 0 <;>
    simp only [h0, if_true, if_false, ite_true, ite_false] <;>
    refine ⟨?_, ?_, ?_, ?_⟩ <;>
    (repeat' split) <;>
    rfl

/-- C1: after `view(mask)`, writing `t` for `mask & TAGMASK`:
if `t` equals the current active tagset the monitor is unchanged;
otherwise, if `t ≠ 0` then `seltags` is flipped, the newly active slot holds
`t` (so the active tagset equals `mask & ((1<<N)-1)`) and `curtag` is pushed
to `prevtag`; if `t = 0`, `seltags` is flipped so the active tagset becomes
the other slot's stored value, and `curtag`/`prevtag` are exchanged. -/
theorem view_switch_spec (m : VMon) (ui : Nat) :
    (ui &&& TAGMASK = getSlot m.tagset m.seltags → view ui m = m) ∧
    (ui &&& TAGMASK ≠ getSlot m.tagset m.seltags →
      (ui &&& TAGMASK ≠ 0 →
        (view ui m).seltags = !m.seltags ∧
        getSlot (view ui m).tagset ((view ui m).seltags) = ui &&& TAGMASK ∧
        (view ui m).pertag.prevtag = m.pertag.curtag) ∧
      (ui &&& TAGMASK = 0 →
        (view ui m).seltags = !m.seltags ∧
        getSlot (view ui m).tagset ((view ui m).seltags) =
          getSlot m.tagset (!m.seltags) ∧
        (view ui m).pertag.curtag = m.pertag.prevtag ∧
        (view ui m).pertag.prevtag = m.pertag.curtag)) := by
  constructor
  · intro heq
    unfold view
    rw [if_pos heq]
  · intro hne
    have h := view_core_fields ui m hne
    obtain ⟨h1, h2, h3, h4⟩ := h
    constructor
    · intro h0
      refine ⟨h1, ?_, h3⟩
      rw [h2, if_pos h0, h1]
      cases m.seltags <;> simp [getSlot, setSlot]
    · intro h0
      have h0' : ¬(ui &&& TAGMASK ≠ 0) := by simpa using h0
      refine ⟨h1, ?_, ?_, h3⟩
      · rw [h2, if_neg h0', h1]
      · rw [h4, if_neg h0']

/-- A concrete monitor state for witnesses: tag 1 active in slot 0. -/
def vmon0 : VMon :=
  { seltags := false, tagset := (1, 4),
    nmaster := 1, mfact := (56 : ℚ)/100, sellt := false, lt := (0, 1),
    showbar := true,
    pertag := { curtag := 1, prevtag := 3, nmasters := fun _ => 1,
                mfacts := fun _ => (56 : ℚ)/100, sellts := fun _ => false,
                ltidxs := fun _ => (0, 1), showbars := fun _ => true } }

/-- Witness for C1: `view(1 << 1)` on a monitor showing tag 1 flips
`seltags`, makes the active tagset `2` and pushes `curtag` to `prevtag`. -/
theorem view_switch_spec_witness :
    (2 &&& TAGMASK ≠ getSlot vmon0.tagset vmon0.seltags) ∧ (2 &&& TAGMASK ≠ 0) ∧
    ((view 2 vmon0).seltags = !vmon0.seltags ∧
     getSlot (view 2 vmon0).tagset ((view 2 vmon0).seltags) = 2 &&& TAGMASK ∧
     (view 2 vmon0).pertag.prevtag = vmon0.pertag.curtag) :=
  ⟨by decide, by decide, ((view_switch_spec vmon0 2).2 (by decide)).1 (by decide)⟩

/-!
## Tag-changing operations (C6, C7)

`applyrules`, `tag`, `toggletag`, `sendmon` and `organizetags` on the
client tag bitmasks.
-/

/-- The final line of `applyrules` (dynamd.c:1097): `ruleTags` is the
OR-merge of the `tags` fields of every matched rule (rule matching reads X
class hints, which are display-level inputs to the model); `active` is the
owning monitor's active tagset. -/
def applyrulesTags (ruleTags active : Nat) : Nat :=
  if ruleTags &&& TAGMASK ≠ 0 then ruleTags &&& TAGMASK else active

/-- `tag` (dynamd.c 2905-2911): the selected client's new tags, `none`
when no client is selected.  `focus`/`arrange` are display-level. -/
def tagAction (ui : Nat) (sel : Option Nat) : Option Nat :=
  match sel with
  | none => none
  | some t => if ui &&& TAGMASK ≠ 0 then some (ui &&& TAGMASK) else some t

/-- `toggletag` (dynamd.c 2953-2965). -/
def toggletagAction (ui : Nat) (sel : Option Nat) : Option Nat :=
  match sel with
  | none => none
  | some t =>
    let newtags := t ^^^ (ui &&& TAGMASK)
    if newtags ≠ 0 then some newtags else some t

/-- The tag reassignment `c->tags = m->tagset[m->seltags]` performed by
`sendmon` (dynamd.c:2616) when moving a client to monitor `m`. -/
def sendmonTags (destTagset : Nat × Nat) (destSeltags : Bool) : Nat :=
  getSlot destTagset destSeltags

/-- Count of set bits of `occ` among indices `0 .. i-1`; the rank a tag
index receives when the occupied tags are compacted downward. -/
def countBelow (occ i : Nat) : Nat :=
  (List.range i).countP occ.testBit

/-- The compaction loop state of `organizetags`: the working copy of the
occupancy mask, the lazily advanced scan cursor `unocc`, and the
`tagdest[]` array. -/
structure OrgSt where
  occ : Nat
  unocc : Nat
  dest : Nat → Nat

/-- Structural worker for `advanceUnocc`; fuel is always at least
`i - unocc`, a bound on the number of loop steps. -/
def advanceUnoccF : Nat → Nat → Nat → Nat → Nat
  | 0, _, unocc, _ => unocc
  | fuel + 1, occ, unocc, i =>
    if unocc < i ∧ occ.testBit unocc = true then advanceUnoccF fuel occ (unocc + 1) i
    else unocc

/-- `while (unocc < i && (occ & (1 << unocc))) unocc++;` in `organizetags`. -/
def advanceUnocc (occ unocc i : Nat) : Nat := advanceUnoccF (i - unocc) occ unocc i

/-- The recursive unfolding of `advanceUnocc`. -/
theorem advanceUnocc_unfold (occ unocc i : Nat) :
    advanceUnocc occ unocc i =
      if unocc < i ∧ occ.testBit unocc = true then advanceUnocc occ (unocc + 1) i
      else unocc := by
  unfold advanceUnocc
  rcases Nat.lt_or_ge unocc i with h | h
  · have hfuel : i - unocc = (i - (unocc + 1)) + 1 := by omega
    rw [hfuel]
    rfl
  · have hfuel : i - unocc = 0 := by omega
    rw [hfuel]
    rw [if_neg]
    · rfl
    · rintro ⟨h1, -⟩
      omega

/-- One iteration of the `for (i = 0; i < LENGTH(tags); ++i)` loop of
`organizetags` (dynamd.c 2412-2422).  `~(1 << i)` is complement at
`unsigned int` width. -/
def orgStep (s : OrgSt) (i : Nat) : OrgSt :=
  let u := advanceUnocc s.occ s.unocc i
  if s.occ.testBit i then
    { occ := s.occ &&& (uintMax ^^^ (1 <<< i)) ||| (1 <<< u),
      unocc := u,
      dest := Function.update s.dest i u }
  else
    { s with unocc := u }

/-- The whole `tagdest`-building loop, starting from occupancy mask `occ0`. -/
def orgLoopAux (occ0 i : Nat) : OrgSt :=
  (List.range i).foldl orgStep { occ := occ0, unocc := 0, dest := fun _ => 0 }

/-- `occ |= (1 << (ffs(c->tags)-1))` folded over the monitor's clients. -/
def occComputed (cls : List Nat) : Nat :=
  cls.foldl (fun occ t => occ ||| (1 <<< lsb t)) 0

/-- The slice of monitor state `organizetags` reads and writes: the tag
mask of each client of the selected monitor in list order, the list index
of `selmon->sel` (if any), and the two-slot tagset. -/
structure TMon where
  clients : List Nat
  selIdx : Option Nat
  seltags : Bool
  tagset : Nat × Nat

/-- `organizetags` (dynamd.c 2399-2433).  The final `arrange(selmon)` is
geometry recomputation outside this model. -/
def organizetags (m : TMon) : TMon :=
  let st := orgLoopAux (occComputed m.clients) numTags
  let cls := m.clients.map (fun t => 1 <<< st.dest (lsb t))
  let ts :=
    match m.selIdx.bind (fun i => cls.get? i) with
    | some t => setSlot m.tagset m.seltags t
    | none => m.tagset
  { m with clients := cls, tagset := ts }

/-! ### Arithmetic facts about `lsb` and `countBelow` -/

theorem lsb_testBit_self (n : Nat) (hn : n ≠ 0) : n.testBit (lsb n) = true := by
  induction n using Nat.strong_induction_on with
  | _ n ih =>
    rw [lsb_unfold, if_neg hn]
    by_cases h2 : n % 2 = 1
    · simp [h2, Nat.testBit_zero]
    · have hhalf : n / 2 ≠ 0 := by omega
      have := ih (n / 2) (Nat.div_lt_self (Nat.pos_of_ne_zero hn) (by decide)) hhalf
      simp only [h2, if_false, ite_false]
      rw [Nat.testBit_succ]
      exact this

theorem lsb_lt_of_lt_two_pow (n k : Nat) (hn : n ≠ 0) (h : n < 2 ^ k) :
    lsb n < k := by
  by_contra hge
  have hb := lsb_testBit_self n hn
  have : n < 2 ^ lsb n := lt_of_lt_of_le h (Nat.pow_le_pow_right (by decide) (by omega))
  rw [Nat.testBit_lt_two_pow this] at hb
  exact Bool.false_ne_true hb

theorem countBelow_succ (occ i : Nat) :
    countBelow occ (i + 1) =
      countBelow occ i + (if occ.testBit i then 1 else 0) := by
  unfold countBelow
  rw [List.range_succ, List.countP_append]
  simp [List.countP_cons]

theorem countBelow_le (occ i : Nat) : countBelow occ i ≤ i := by
  have := List.countP_le_length (l := List.range i) (p := occ.testBit)
  simpa [countBelow] using this

theorem countBelow_mono (occ : Nat) {i j : Nat} (h : i ≤ j) :
    countBelow occ i ≤ countBelow occ j := by
  induction j with
  | zero => simp_all [Nat.le_zero.mp h]
  | succ j ih =>
    rcases Nat.lt_or_ge i (j + 1) with hlt | hge
    · have := ih (by omega)
      rw [countBelow_succ]
      split <;> omega
    · have : i = j + 1 := by omega
      simp [this]

theorem countBelow_strict (occ : Nat) {i j : Nat} (h : i < j)
    (hi : occ.testBit i = true) : countBelow occ i < countBelow occ j := by
  have h1 : countBelow occ (i + 1) = countBelow occ i + 1 := by
    rw [countBelow_succ, hi]; simp
  have h2 : countBelow occ (i + 1) ≤ countBelow occ j := countBelow_mono occ (by omega)
  omega

theorem countBelow_surj (occ i : Nat) :
    ∀ t, t < countBelow occ i →
      ∃ j, j < i ∧ occ.testBit j = true ∧ countBelow occ j = t := by
  induction i with
  | zero => intro t ht; simp [countBelow] at ht
  | succ i ih =>
    intro t ht
    rcases Nat.lt_or_ge t (countBelow occ i) with hlt | hge
    · obtain ⟨j, hj, hb, hc⟩ := ih t hlt
      exact ⟨j, by omega, hb, hc⟩
    · rw [countBelow_succ] at ht
      by_cases hb : occ.testBit i = true
      · have : t = countBelow occ i := by simp [hb] at ht; omega
        exact ⟨i, by omega, hb, this.symm⟩
      · simp [hb] at ht; omega

/-! ### The compaction-loop invariant -/

theorem advanceUnocc_eq (occ c i : Nat) (hc : c ≤ i)
    (hset : ∀ j, j < c → occ.testBit j = true)
    (hclear : c < i → occ.testBit c = false) :
    ∀ u, u ≤ c → advanceUnocc occ u i = c := by
  have main : ∀ k u, c - u ≤ k → u ≤ c → advanceUnocc occ u i = c := by
    intro k
    induction k with
    | zero =>
      intro u hk hu
      have hu2 : u = c := by omega
      subst hu2
      rw [advanceUnocc_unfold]
      rcases Nat.lt_or_ge u i with hlt | hge
      · rw [if_neg]
        rintro ⟨-, hbit⟩
        rw [hclear hlt] at hbit
        exact Bool.false_ne_true hbit
      · rw [if_neg]
        rintro ⟨hui, -⟩
        omega
    | succ k ih =>
      intro u hk hu
      rcases Nat.lt_or_ge u c with hlt | hge
      · rw [advanceUnocc_unfold, if_pos ⟨by omega, hset u hlt⟩]
        exact ih (u + 1) (by omega) (by omega)
      · have hu2 : u = c := by omega
        subst hu2
        rw [advanceUnocc_unfold]
        rcases Nat.lt_or_ge u i with hlt | hge2
        · rw [if_neg]
          rintro ⟨-, hbit⟩
          rw [hclear hlt] at hbit
          exact Bool.false_ne_true hbit
        · rw [if_neg]
          rintro ⟨hui, -⟩
          omega
  intro u hu
  exact main (c - u) u le_rfl hu

/-- The invariant carried by the `tagdest`-building loop: after the first
`i` iterations, the bits of the working occupancy mask below `i` are
exactly `0 .. countBelow occ0 i - 1` while the bits from `i` up are still
those of `occ0`; the cursor has not passed the compacted region; and
`tagdest[j]` holds the rank of every occupied `j < i`. -/
def OrgInv (occ0 i : Nat) (s : OrgSt) : Prop :=
  (∀ j, s.occ.testBit j = true ↔
      ((j < i ∧ j < countBelow occ0 i) ∨ (i ≤ j ∧ occ0.testBit j = true))) ∧
  s.unocc ≤ countBelow occ0 i ∧
  (∀ j, j < i → occ0.testBit j = true → s.dest j = countBelow occ0 j)

theorem orgStep_inv (occ0 : Nat) (hocc : occ0 < 2 ^ numTags)
    (i : Nat) (hi : i < numTags) (s : OrgSt) (h : OrgInv occ0 i s) :
    OrgInv occ0 (i + 1) (orgStep s i) := by
  obtain ⟨hchar, hcur, hdest⟩ := h
  set c := countBelow occ0 i with hc
  have hci : c ≤ i := countBelow_le occ0 i
  have hadv : advanceUnocc s.occ s.unocc i = c := by
    refine advanceUnocc_eq s.occ c i hci ?_ ?_ s.unocc hcur
    · intro j hj
      exact (hchar j).mpr (Or.inl ⟨by omega, hj⟩)
    · intro hlt
      rw [← Bool.not_eq_true]
      intro hbit
      rcases (hchar c).mp hbit with ⟨-, hcc⟩ | ⟨hic, -⟩ <;> omega
  have hbit_i : s.occ.testBit i = occ0.testBit i := by
    by_cases hb : occ0.testBit i = true
    · rw [hb]; exact (hchar i).mpr (Or.inr ⟨le_rfl, hb⟩)
    · rw [Bool.not_eq_true] at hb
      rw [hb, ← Bool.not_eq_true]
      intro hx
      rcases (hchar i).mp hx with ⟨hii, -⟩ | ⟨-, hx2⟩
      · omega
      · rw [hb] at hx2; exact Bool.false_ne_true hx2
  unfold orgStep
  rw [hadv]
  by_cases hb : occ0.testBit i = true
  · have hcsucc : countBelow occ0 (i + 1) = c + 1 := by
      rw [countBelow_succ, hb]; simp
    rw [hbit_i, hb]
    simp only [if_true, ite_true]
    have hi32 : i < 32 := by
      have : numTags = 25 := rfl
      omega
    have h2i : (1 : Nat) <<< i = 2 ^ i := by rw [Nat.shiftLeft_eq, one_mul]
    have h2c : (1 : Nat) <<< c = 2 ^ c := by rw [Nat.shiftLeft_eq, one_mul]
    have hum : uintMax = 2 ^ 32 - 1 := rfl
    refine ⟨?_, by rw [hcsucc]; exact Nat.le_succ c, ?_⟩
    · intro j
      rw [hcsucc, Nat.testBit_or, Nat.testBit_and, h2i, h2c, hum, Nat.testBit_xor,
        Nat.testBit_two_pow_sub_one]
      simp only [Nat.testBit_two_pow, Bool.or_eq_true, Bool.and_eq_true, Bool.xor_iff_ne,
        ne_eq, decide_eq_decide, decide_eq_true_eq, hchar j]
      by_cases hij : i = j
      · subst hij
        simp [hb]
        try omega
      · by_cases hB : occ0.testBit j = true
        · have hj25 : j < numTags := by
            by_contra hge
            rw [Nat.testBit_lt_two_pow
              (lt_of_lt_of_le hocc (Nat.pow_le_pow_right (by decide) (by omega)))] at hB
            exact Bool.false_ne_true hB
          have hj25' : j < 25 := by
            have hnum : numTags = 25 := rfl
            omega
          simp [hB, hij]
          try omega
        · have hBf : occ0.testBit j = false := by
            rw [← Bool.not_eq_true]
            exact hB
          simp [hBf, hij]
          try omega
    · intro j hj hbj
      show Function.update s.dest i c j = countBelow occ0 j
      rcases Nat.lt_or_ge j i with hlt | hge
      · rw [Function.update_noteq (by omega)]
        exact hdest j hlt hbj
      · have hji : j = i := by omega
        rw [hji, Function.update_same]
  · have hbf : occ0.testBit i = false := by
      rw [← Bool.not_eq_true]; exact hb
    have hcsucc : countBelow occ0 (i + 1) = c := by
      rw [countBelow_succ, hbf]; simp
    rw [hbit_i, hbf]
    simp only [Bool.false_eq_true, if_false, ite_false]
    refine ⟨?_, by rw [hcsucc], ?_⟩
    · intro j
      rw [hcsucc, hchar j]
      constructor
      · rintro (⟨h1, h2⟩ | ⟨h1, h2⟩)
        · exact Or.inl ⟨by omega, h2⟩
        · rcases Nat.eq_or_lt_of_le h1 with heq | hgt
          · rw [heq] at hbf
            rw [h2] at hbf
            exact absurd hbf (by simp)
          · exact Or.inr ⟨by omega, h2⟩
      · rintro (⟨h1, h2⟩ | ⟨h1, h2⟩)
        · rcases Nat.lt_or_ge j i with hlt | hge
          · exact Or.inl ⟨hlt, h2⟩
          · have hji : j = i := by omega
            subst hji
            omega
        · exact Or.inr ⟨by omega, h2⟩
      -- for the j = i case above: j < c contradicts c ≤ i = j
    · intro j hj hbj
      show s.dest j = countBelow occ0 j
      rcases Nat.lt_or_ge j i with hlt | hge
      · exact hdest j hlt hbj
      · have hji : j = i := by omega
        rw [hji] at hbj
        rw [hbj] at hbf
        exact absurd hbf (by simp)

/-- The loop invariant holds after every prefix of the loop. -/
theorem orgLoopAux_inv (occ0 : Nat) (hocc : occ0 < 2 ^ numTags) :
    ∀ i, i ≤ numTags → OrgInv occ0 i (orgLoopAux occ0 i) := by
  intro i
  induction i with
  | zero =>
    intro _
    refine ⟨?_, ?_, ?_⟩
    · intro j
      simp [orgLoopAux, countBelow]
    · simp [orgLoopAux, countBelow]
    · intro j hj
      omega
  | succ i ih =>
    intro hle
    have hstep : orgLoopAux occ0 (i + 1) = orgStep (orgLoopAux occ0 i) i := by
      unfold orgLoopAux
      rw [List.range_succ, List.foldl_append, List.foldl_cons, List.foldl_nil]
    rw [hstep]
    exact orgStep_inv occ0 hocc i (by omega) _ (ih (by omega))

/-- `tagdest[j]` after the full loop is the rank of `j` among the occupied
tags, for every occupied `j`. -/
theorem orgLoop_dest_eq_rank (occ0 : Nat) (hocc : occ0 < 2 ^ numTags)
    (j : Nat) (hj : j < numTags) (hbj : occ0.testBit j = true) :
    (orgLoopAux occ0 numTags).dest j = countBelow occ0 j :=
  (orgLoopAux_inv occ0 hocc numTags le_rfl).2.2 j hj hbj

/-! ### The occupancy mask -/

theorem occFold_testBit (cls : List Nat) (a j : Nat) :
    ((cls.foldl (fun occ t => occ ||| (1 <<< lsb t)) a).testBit j = true ↔
      a.testBit j = true ∨ ∃ t ∈ cls, lsb t = j) := by
  induction cls generalizing a with
  | nil => simp
  | cons t ts ih =>
    simp only [List.foldl_cons]
    rw [ih]
    simp only [Nat.testBit_or, Bool.or_eq_true, Nat.shiftLeft_eq, one_mul,
      Nat.testBit_two_pow, decide_eq_true_eq, List.mem_cons]
    constructor
    · rintro ((ha | heq) | ⟨u, hu, hl⟩)
      · exact Or.inl ha
      · exact Or.inr ⟨t, Or.inl rfl, heq⟩
      · exact Or.inr ⟨u, Or.inr hu, hl⟩
    · rintro (ha | ⟨u, (rfl | hu), hl⟩)
      · exact Or.inl (Or.inl ha)
      · exact Or.inl (Or.inr hl)
      · exact Or.inr ⟨u, hu, hl⟩

theorem occComputed_testBit (cls : List Nat) (j : Nat) :
    ((occComputed cls).testBit j = true ↔ ∃ t ∈ cls, lsb t = j) := by
  unfold occComputed
  rw [occFold_testBit]
  simp

theorem occComputed_lt (cls : List Nat)
    (hv : ∀ t ∈ cls, t ≠ 0 ∧ t < 2 ^ numTags) :
    occComputed cls < 2 ^ numTags := by
  suffices h : ∀ a, a < 2 ^ numTags →
      cls.foldl (fun occ t => occ ||| (1 <<< lsb t)) a < 2 ^ numTags by
    exact h 0 (by decide)
  induction cls with
  | nil => intro a ha; simpa using ha
  | cons t ts ih =>
    intro a ha
    simp only [List.foldl_cons]
    refine ih (fun u hu => hv u (List.mem_cons_of_mem t hu)) _ ?_
    obtain ⟨ht0, htlt⟩ := hv t (List.mem_cons_self t ts)
    refine Nat.or_lt_two_pow ha ?_
    rw [Nat.shiftLeft_eq, one_mul]
    exact Nat.pow_lt_pow_right (by decide) (lsb_lt_of_lt_two_pow t numTags ht0 htlt)

theorem lsb_two_pow (k : Nat) : lsb (2 ^ k) = k := by
  induction k with
  | zero => rw [lsb_unfold]; simp
  | succ k ih =>
    rw [lsb_unfold]
    have h1 : 2 ^ (k + 1) ≠ 0 := by positivity
    have h2 : ¬(2 ^ (k + 1) % 2 = 1) := by
      rw [pow_succ, Nat.mul_mod_left]
      omega
    rw [if_neg h1]
    rw [if_neg h2]
    have h3 : 2 ^ (k + 1) / 2 = 2 ^ k := by
      rw [pow_succ]
      omega
    rw [h3, ih]

/-- C6: `organizetags` rewrites each client's tag in place (preserving the
client list's order and length) to the single tag whose index is the rank
of the client's lowest original tag among the occupied tags; the
relabelling is strictly monotone (hence injective) on occupied tags, and
afterwards there is no unoccupied tag index below any occupied one. -/
theorem organizetags_spec (m : TMon)
    (hv : ∀ t ∈ m.clients, t ≠ 0 ∧ t < 2 ^ numTags) :
    ((organizetags m).clients =
      m.clients.map (fun t => 1 <<< countBelow (occComputed m.clients) (lsb t))) ∧
    ((organizetags m).clients.map lsb =
      m.clients.map (fun t => countBelow (occComputed m.clients) (lsb t))) ∧
    (∀ j1 j2, (occComputed m.clients).testBit j1 = true →
      (occComputed m.clients).testBit j2 = true → j1 < j2 →
      countBelow (occComputed m.clients) j1 < countBelow (occComputed m.clients) j2) ∧
    (∀ t1 t2, t2 < t1 →
      (∃ s ∈ (organizetags m).clients, s.testBit t1 = true) →
      ∃ s ∈ (organizetags m).clients, s.testBit t2 = true) := by
  have hocc : occComputed m.clients < 2 ^ numTags := occComputed_lt m.clients hv
  have hdest : ∀ t ∈ m.clients,
      (orgLoopAux (occComputed m.clients) numTags).dest (lsb t) =
        countBelow (occComputed m.clients) (lsb t) := by
    intro t ht
    obtain ⟨ht0, htlt⟩ := hv t ht
    refine orgLoop_dest_eq_rank (occComputed m.clients) hocc (lsb t)
      (lsb_lt_of_lt_two_pow t numTags ht0 htlt) ?_
    exact (occComputed_testBit m.clients (lsb t)).mpr ⟨t, ht, rfl⟩
  have hmap : (organizetags m).clients =
      m.clients.map (fun t => 1 <<< countBelow (occComputed m.clients) (lsb t)) := by
    show m.clients.map _ = _
    exact List.map_congr_left (fun t ht => by rw [hdest t ht])
  refine ⟨hmap, ?_, ?_, ?_⟩
  · rw [hmap, List.map_map]
    refine List.map_congr_left (fun t ht => ?_)
    show lsb (1 <<< countBelow (occComputed m.clients) (lsb t)) = _
    rw [Nat.shiftLeft_eq, one_mul, lsb_two_pow]
  · intro j1 j2 hb1 hb2 hlt
    exact countBelow_strict (occComputed m.clients) hlt hb1
  · intro t1 t2 hlt ⟨s, hs, hbit⟩
    rw [hmap] at hs
    obtain ⟨u, hu, rfl⟩ := List.mem_map.mp hs
    have hrank : countBelow (occComputed m.clients) (lsb u) = t1 := by
      rw [Nat.shiftLeft_eq, one_mul, Nat.testBit_two_pow] at hbit
      exact of_decide_eq_true hbit
    obtain ⟨j, hj, hbj, hcj⟩ :=
      countBelow_surj (occComputed m.clients) (lsb u) t2 (by omega)
    obtain ⟨v, hvmem, hvl⟩ := (occComputed_testBit m.clients j).mp hbj
    refine ⟨1 <<< countBelow (occComputed m.clients) (lsb v), ?_, ?_⟩
    · rw [hmap]
      exact List.mem_map.mpr ⟨v, hvmem, rfl⟩
    · rw [hvl, hcj, Nat.shiftLeft_eq, one_mul]
      exact Nat.testBit_two_pow_self

/-- A concrete monitor state for the C6 witness: clients on tags 2, 5
and 2 (tag masks `1 << k`). -/
def tmon0 : TMon :=
  { clients := [4, 32, 4], selIdx := none, seltags := false, tagset := (4, 1) }

/-- Witness for C6: the three clients of `tmon0` are compacted onto tags
0 and 1. -/
theorem organizetags_spec_witness :
    (∀ t ∈ tmon0.clients, t ≠ 0 ∧ t < 2 ^ numTags) ∧
    (organizetags tmon0).clients = [1, 2, 1] := by
  constructor
  · decide
  · have h := (organizetags_spec tmon0 (by decide)).1
    rw [h]
    decide

/-! ### C7: every tag-changing operation keeps client tag masks valid -/

/-- `TAGMASK` written as `2 ^ numTags - 1`. -/
theorem TAGMASK_eq : TAGMASK = 2 ^ numTags - 1 := by decide

/-- A mask confined to the tag bits, i.e. fixed by `&&& TAGMASK`, is
exactly a mask below `2 ^ numTags`. -/
theorem and_TAGMASK_self (t : Nat) : t &&& TAGMASK = t ↔ t < 2 ^ numTags := by
  rw [TAGMASK_eq, Nat.and_pow_two_sub_one_eq_mod]
  constructor
  · intro h
    rw [← h]
    exact Nat.mod_lt t (by positivity)
  · exact Nat.mod_eq_of_lt

theorem and_TAGMASK_lt (t : Nat) : t &&& TAGMASK < 2 ^ numTags := by
  rw [TAGMASK_eq, Nat.and_pow_two_sub_one_eq_mod]
  exact Nat.mod_lt t (by positivity)

/-- C7: each tag-changing operation leaves the affected client with a tag
mask that is nonzero and uses only bits `0..N-1`, assuming the monitors'
active tagsets and the client's previous tags satisfy the same invariant:
`applyrules` falls back to the monitor's active tagset when no rule tag
survives masking; `tag` only assigns masks with a nonzero `TAGMASK`
projection; `toggletag` rejects a zero XOR result (leaving the tags
unchanged); `sendmon` assigns the destination's active tagset; and
`organizetags` assigns single relabelled tags. -/
theorem tag_ops_preserve_validity (ruleTags active ui t : Nat)
    (dtg : Nat × Nat) (dsel : Bool) (m : TMon)
    (hactive : active ≠ 0 ∧ active < 2 ^ numTags)
    (ht : t ≠ 0 ∧ t < 2 ^ numTags)
    (hdst : getSlot dtg dsel ≠ 0 ∧ getSlot dtg dsel < 2 ^ numTags)
    (hm : ∀ s ∈ m.clients, s ≠ 0 ∧ s < 2 ^ numTags) :
    (applyrulesTags ruleTags active ≠ 0 ∧
      applyrulesTags ruleTags active < 2 ^ numTags) ∧
    (∀ t2, tagAction ui (some t) = some t2 → t2 ≠ 0 ∧ t2 < 2 ^ numTags) ∧
    (∀ t2, toggletagAction ui (some t) = some t2 → t2 ≠ 0 ∧ t2 < 2 ^ numTags) ∧
    (t ^^^ (ui &&& TAGMASK) = 0 → toggletagAction ui (some t) = some t) ∧
    (sendmonTags dtg dsel ≠ 0 ∧ sendmonTags dtg dsel < 2 ^ numTags) ∧
    (∀ s ∈ (organizetags m).clients, s ≠ 0 ∧ s < 2 ^ numTags) := by
  refine ⟨?_, ?_, ?_, ?_, hdst, ?_⟩
  · unfold applyrulesTags
    split
    · exact ⟨by assumption, and_TAGMASK_lt ruleTags⟩
    · exact hactive
  · intro t2 h2
    simp only [tagAction] at h2
    split at h2
    · cases h2
      exact ⟨by assumption, and_TAGMASK_lt ui⟩
    · cases h2
      exact ht
  · intro t2 h2
    simp only [toggletagAction] at h2
    split at h2
    · cases h2
      refine ⟨by assumption, ?_⟩
      exact Nat.xor_lt_two_pow ht.2 (and_TAGMASK_lt ui)
    · cases h2
      exact ht
  · intro hz
    simp only [toggletagAction]
    rw [if_neg]
    simpa using hz
  · intro s hs
    have hmap := (organizetags_spec m hm).1
    rw [hmap] at hs
    obtain ⟨u, hu, rfl⟩ := List.mem_map.mp hs
    obtain ⟨hu0, hult⟩ := hm u hu
    constructor
    · rw [Nat.shiftLeft_eq, one_mul]
      positivity
    · rw [Nat.shiftLeft_eq, one_mul]
      refine Nat.pow_lt_pow_right (by decide) ?_
      have h1 : lsb u < numTags := lsb_lt_of_lt_two_pow u numTags hu0 hult
      have h2 := countBelow_le (occComputed m.clients) (lsb u)
      omega

/-- Witness for C7 at concrete inputs: rule tags `0` fall back to the
active tagset `4`; `tag(2)`, `toggletag(6)` on tags `2`, a `sendmon`
destination showing tag 3, and the `tmon0` client list. -/
theorem tag_ops_preserve_validity_witness :
    ((4 : Nat) ≠ 0 ∧ (4 : Nat) < 2 ^ numTags) ∧
    ((2 : Nat) ≠ 0 ∧ (2 : Nat) < 2 ^ numTags) ∧
    (getSlot (8, 1) true ≠ 0 ∧ getSlot (8, 1) true < 2 ^ numTags) ∧
    (∀ s ∈ tmon0.clients, s ≠ 0 ∧ s < 2 ^ numTags) ∧
    ((applyrulesTags 0 4 ≠ 0 ∧ applyrulesTags 0 4 < 2 ^ numTags) ∧
     (∀ t2, tagAction 6 (some 2) = some t2 → t2 ≠ 0 ∧ t2 < 2 ^ numTags) ∧
     (∀ t2, toggletagAction 6 (some 2) = some t2 → t2 ≠ 0 ∧ t2 < 2 ^ numTags) ∧
     ((2 : Nat) ^^^ (6 &&& TAGMASK) = 0 → toggletagAction 6 (some 2) = some 2) ∧
     (sendmonTags (8, 1) true ≠ 0 ∧ sendmonTags (8, 1) true < 2 ^ numTags) ∧
     (∀ s ∈ (organizetags tmon0).clients, s ≠ 0 ∧ s < 2 ^ numTags)) :=
  ⟨by decide, by decide, by decide, by decide,
   tag_ops_preserve_validity 0 4 6 2 (8, 1) true tmon0
     (by decide) (by decide) (by decide) (by decide)⟩

/-!
## Geometry model: clients, monitors, size hints, layouts (C3, C5, C8, C9, C10)

C `int` pixel quantities are `Int`.  C performs some of these computations
after implicit conversion to `unsigned`; for the in-range values reachable
here the two's-complement round trip agrees with plain `Int` arithmetic,
which is what is written.  `cdiv`/`cmod` are C's truncated division.
-/

/-- C `int` division (truncation toward zero). -/
def cdiv (a b : Int) : Int := Int.tdiv a b

/-- C `int` remainder (sign of the dividend). -/
def cmod (a b : Int) : Int := Int.tmod a b

/-- The fields of `struct Client` the geometry engine reads or writes.
`id` stands for the C pointer identity. -/
structure LClient where
  id : Nat := 0
  x : Int := 0
  y : Int := 0
  w : Int := 0
  h : Int := 0
  oldx : Int := 0
  oldy : Int := 0
  oldw : Int := 0
  oldh : Int := 0
  bw : Int := 0
  oldbw : Int := 0
  basew : Int := 0
  baseh : Int := 0
  incw : Int := 0
  inch : Int := 0
  maxw : Int := 0
  maxh : Int := 0
  minw : Int := 0
  minh : Int := 0
  mina : ℚ := 0
  maxa : ℚ := 0
  tags : Nat := 1
  isfloating : Bool := false
  isfullscreen : Bool := false
  oldstate : Bool := false
  isfixed : Bool := false
deriving DecidableEq

/-- The fields of `struct Monitor` (plus the process globals `sw`, `sh`,
`bh`, `enablegaps`) that the geometry engine reads.  The two layout
pointers are abstracted to what the code compares them against: whether
`lt[sellt]->arrange` is `monocle` and whether it is `NULL` (floating
layout). -/
structure LMon where
  clients : List LClient := []
  sel : Option Nat := none
  tagsetActive : Nat := 1
  nmaster : Nat := 1
  mfact : ℚ := 56/100
  mx : Int := 0
  my : Int := 0
  mw : Int := 1920
  mh : Int := 1080
  wx : Int := 0
  wy : Int := 22
  ww : Int := 1920
  wh : Int := 1058
  gappoh : Int := 10
  gappov : Int := 10
  gappih : Int := 10
  gappiv : Int := 10
  enablegaps : Bool := true
  arrangeIsMonocle : Bool := false
  arrangeIsNull : Bool := false
  sw : Int := 1920
  sh : Int := 1080
  bh : Int := 22
deriving DecidableEq

/-- `ISVISIBLE(C)` (dynamd.c:98). -/
def visible (m : LMon) (c : LClient) : Bool := (c.tags &&& m.tagsetActive) != 0

/-- The clients the `nexttiled` chain visits: visible and not floating. -/
def isTiled (m : LMon) (c : LClient) : Bool := !c.isfloating && visible m c

/-- `WIDTH(X)` (dynamd.c:101). -/
def widthOf (c : LClient) : Int := c.w + 2 * c.bw

/-- `HEIGHT(X)` (dynamd.c:102). -/
def heightOf (c : LClient) : Int := c.h + 2 * c.bw

/-- `nexttiled` (dynamd.c 2333-2337) on a client sublist. -/
def nexttiled (m : LMon) : List LClient → Option LClient
  | [] => none
  | c :: cs => if isTiled m c then some c else nexttiled m cs

/-- The sublist after the client with id `cid` (`c->next` chains). -/
def restAfter : List LClient → Nat → List LClient
  | [], _ => []
  | c :: cs, cid => if c.id = cid then cs else restAfter cs cid

/-- Number of clients counted by the `for (n = 0, c = nexttiled(...)...` loops. -/
def tiledCount (m : LMon) : Nat := m.clients.countP (isTiled m)

/-- Update the client record the C code mutates through the pointer `cid`. -/
def updClient (m : LMon) (cid : Nat) (f : LClient → LClient) : LMon :=
  { m with clients := m.clients.map (fun c => if c.id = cid then f c else c) }

/-- Dereference a client pointer. -/
def findClient (m : LMon) (cid : Nat) : Option LClient :=
  m.clients.find? (fun c => c.id == cid)

/-- `applysizehints` (dynamd.c 1101-1176): returns the corrected
rectangle and whether it differs from the client's current one.  The
floating-point aspect-ratio arithmetic is exact-rational here. -/
def applysizehints (m : LMon) (c : LClient) (x0 y0 w0 h0 : Int)
    (interact : Bool) : Bool × Int × Int × Int × Int :=
  let w1 := max 1 w0
  let h1 := max 1 h0
  let x1 := if interact then (if x0 > m.sw then m.sw - widthOf c else x0)
            else (if x0 ≥ m.wx + m.ww then m.wx + m.ww - widthOf c else x0)
  let y1 := if interact then (if y0 > m.sh then m.sh - heightOf c else y0)
            else (if y0 ≥ m.wy + m.wh then m.wy + m.wh - heightOf c else y0)
  let x2 := if interact then (if x1 + w1 + 2 * c.bw < 0 then 0 else x1)
            else (if x1 + w1 + 2 * c.bw ≤ m.wx then m.wx else x1)
  let y2 := if interact then (if y1 + h1 + 2 * c.bw < 0 then 0 else y1)
            else (if y1 + h1 + 2 * c.bw ≤ m.wy then m.wy else y1)
  let h2 := if h1 < m.bh then m.bh else h1
  let w2 := if w1 < m.bh then m.bh else w1
  let (w6, h6) :=
    if c.isfloating || m.arrangeIsNull then
      let baseismin := c.basew = c.minw && c.baseh = c.minh
      let w3 := if !baseismin then w2 - c.basew else w2
      let h3 := if !baseismin then h2 - c.baseh else h2
      let (w4, h4) :=
        if 0 < c.mina ∧ 0 < c.maxa then
          if c.maxa < (w3 : ℚ) / (h3 : ℚ) then
            (ratTrunc ((h3 : ℚ) * c.maxa + 1/2), h3)
          else if c.mina < (h3 : ℚ) / (w3 : ℚ) then
            (w3, ratTrunc ((w3 : ℚ) * c.mina + 1/2))
          else (w3, h3)
        else (w3, h3)
      let w5 := if baseismin then w4 - c.basew else w4
      let h5 := if baseismin then h4 - c.baseh else h4
      let w5i := if c.incw ≠ 0 then w5 - cmod w5 c.incw else w5
      let h5i := if c.inch ≠ 0 then h5 - cmod h5 c.inch else h5
      let wr := max (w5i + c.basew) c.minw
      let hr := max (h5i + c.baseh) c.minh
      let wm := if c.maxw ≠ 0 then min wr c.maxw else wr
      let hm := if c.maxh ≠ 0 then min hr c.maxh else hr
      (wm, hm)
    else (w2, h2)
  (decide (x2 ≠ c.x) || decide (y2 ≠ c.y) || decide (w6 ≠ c.w) || decide (h6 ≠ c.h),
   x2, y2, w6, h6)

/-- `(nexttiled(c->mon->clients) == c && !nexttiled(c->next)) ||
&monocle == c->mon->lt[c->mon->sellt]->arrange` from `resizeclient`
(dynamd.c 2452-2453); the pointer comparison is by client id. -/
def soleOrMonocle (m : LMon) (cid : Nat) : Bool :=
  ((nexttiled m m.clients).map LClient.id == some cid
    && ((nexttiled m (restAfter m.clients cid)).map LClient.id).isNone)
  || m.arrangeIsMonocle

/-- The border-collapse condition of `resizeclient` (dynamd.c 2452-2454):
the client is the sole tiled client or the layout is monocle, and it is
neither fullscreen nor floating. -/
def noborder (m : LMon) (c : LClient) : Bool :=
  soleOrMonocle m c.id && !c.isfullscreen && !c.isfloating

/-- `resizeclient` (dynamd.c 2443-2463) on the client record: saves the old
rectangle, installs the new one, and widens sole-tiled/monocle clients by
the border they lose.  `XConfigureWindow`/`configure`/`XSync` transmit the
result to the server. -/
def resizeclient (m : LMon) (c : LClient) (x y w h : Int) : LClient :=
  let c1 := { c with oldx := c.x, x := x, oldy := c.y, y := y,
                     oldw := c.w, w := w, oldh := c.h, h := h }
  if noborder m c then { c1 with w := w + 2 * c.bw, h := h + 2 * c.bw } else c1

/-- `resize` (dynamd.c 2436-2440). -/
def resize (m : LMon) (c : LClient) (x y w h : Int) (interact : Bool) : LClient :=
  match applysizehints m c x y w h interact with
  | (changed, x2, y2, w2, h2) =>
    if changed then resizeclient m c x2 y2 w2 h2 else c

/-- `resizeclient` acting through a client pointer. -/
def resizeclientM (m : LMon) (cid : Nat) (x y w h : Int) : LMon :=
  updClient m cid (fun c => resizeclient m c x y w h)

/-- The client-field writes of the fullscreen-entry branch of
`setfullscreen` (dynamd.c 2692-2696). -/
def fsEnter (c0 : LClient) : LClient :=
  { c0 with isfullscreen := true, oldstate := c0.isfloating, oldbw := c0.bw,
            bw := 0, isfloating := true }

/-- The client-field writes of the fullscreen-exit branch of
`setfullscreen` (dynamd.c 2705-2711). -/
def fsLeave (c0 : LClient) : LClient :=
  { c0 with isfullscreen := false, isfloating := c0.oldstate, bw := c0.oldbw,
            x := c0.oldx, y := c0.oldy, w := c0.oldw, h := c0.oldh }

/-- `setfullscreen` (dynamd.c 2687-2716).  The `_NET_WM_STATE` property
write and `XRaiseWindow` are server-side; the trailing `arrange(c->mon)`
recomputes tiled geometry and is outside the scope of this claim's model
(it reproduces the pre-toggle steady-state geometry). -/
def setfullscreen (m : LMon) (cid : Nat) (fullscreen : Bool) : LMon :=
  match findClient m cid with
  | none => m
  | some c =>
    if fullscreen && !c.isfullscreen then
      let m1 := updClient m cid fsEnter
      resizeclientM m1 cid m.mx m.my m.mw m.mh
    else if !fullscreen && c.isfullscreen then
      let m1 := updClient m cid fsLeave
      match findClient m1 cid with
      | none => m1
      | some c1 => resizeclientM m1 cid c1.x c1.y c1.w c1.h
    else m

/-- `togglefloating` (dynamd.c 2931-2943).  The trailing `arrange(selmon)`
is geometry recomputation outside the modelled fields. -/
def togglefloating (m : LMon) : LMon :=
  match m.sel with
  | none => m
  | some cid =>
    match findClient m cid with
    | none => m
    | some c =>
      if c.isfullscreen then m
      else
        let m1 := updClient m cid (fun c0 =>
          { c0 with isfloating := !c0.isfloating || c0.isfixed })
        match findClient m1 cid with
        | none => m1
        | some c1 =>
          if c1.isfloating then
            updClient m1 cid (fun c0 => resize m1 c0 c1.x c1.y c1.w c1.h false)
          else m1

/-- `setmfact` (dynamd.c 2739-2750), on the monitor's `mfact` together with
the `pertag` copy.  `arg == NULL` or a floating layout is a no-op; the
trailing `arrange(selmon)` is geometry recomputation. -/
def setmfact (m : LMon) (pertagMfacts : Nat → ℚ) (curtag : Nat)
    (arg : Option ℚ) : LMon × (Nat → ℚ) :=
  match arg with
  | none => (m, pertagMfacts)
  | some f0 =>
    if m.arrangeIsNull then (m, pertagMfacts)
    else
      let f := if f0 < 1 then f0 + m.mfact else f0 - 1
      if f < 1/10 ∨ 9/10 < f then (m, pertagMfacts)
      else ({ m with mfact := f }, Function.update pertagMfacts curtag f)

/-!
### The layout engine

Loop indices are `unsigned` in C; where an index expression can wrap
(`i - nmaster`, `n - nmaster` with more masters than clients) the model
computes it with explicit 32-bit wrap (`u32sub`), and comparisons whose C
operands undergo the `int`→`unsigned` usual-arithmetic conversion convert
through `u32int`.
-/

/-- 32-bit unsigned subtraction (`a`, `b` below `2 ^ 32`). -/
def u32sub (a b : Nat) : Nat := (a + 2 ^ 32 - b % 2 ^ 32) % 2 ^ 32

/-- The `unsigned` reinterpretation of a C `int` value. -/
def u32int (a : Int) : Nat := (a % 2 ^ 32).toNat

/-- `getgaps` (dynamd.c 961-979): outer gaps collapse when exactly one
client is tiled; returns `(oh, ov, ih, iv, n)`. -/
def getgaps (m : LMon) : Int × Int × Int × Int × Nat :=
  let n := tiledCount m
  let ie : Int := if m.enablegaps then 1 else 0
  let oe : Int := if n = 1 then 0 else ie
  (m.gappoh * oe, m.gappov * oe, m.gappih * ie, m.gappiv * ie, n)

/-- `getfacts` (dynamd.c 1006-1031): master/stack tile factors and the
pixel remainders of the even splits.  `sfacts` is computed with the
unsigned wrap of `n - m->nmaster`; each `+=` accumulates a float and
truncates back to `int`. -/
def getfacts (m : LMon) (msize ssize : Int) : ℚ × ℚ × Int × Int :=
  let n := tiledCount m
  let mfacts : ℚ := ((min n m.nmaster : Nat) : ℚ)
  let sfacts : ℚ := ((u32sub n m.nmaster : Nat) : ℚ)
  let tot := (List.range n).foldl
    (fun (tot : Int × Int) (j : Nat) =>
      if j < m.nmaster then
        (ratTrunc ((tot.1 : ℚ) + (msize : ℚ) / mfacts), tot.2)
      else
        (tot.1, ratTrunc ((tot.2 : ℚ) + (ssize : ℚ) / sfacts)))
    (0, 0)
  (mfacts, sfacts, msize - tot.1, ssize - tot.2)

/-- The extent slice a tile receives in the split direction:
`size / facts + (i < rest ? 1 : 0)`, with the C comparison of the
`unsigned` index against the `int` remainder. -/
def tileSlice (size : Int) (facts : ℚ) (rest : Int) (i : Nat) : Int :=
  ratTrunc ((size : ℚ) / facts) + (if i < u32int rest then 1 else 0)

/-- The iteration scheme shared by every layout:
`for (i = 0, c = nexttiled(m->clients); c; c = nexttiled(c->next), i++)`.
Walks the client list, rewriting exactly the clients of the `nexttiled`
chain through `step` (which receives and threads the loop state), and
leaving every other client untouched. -/
def tiledFold {σ : Type} (p : LClient → Bool)
    (step : σ → LClient → LClient × σ) : σ → List LClient → List LClient
  | _, [] => []
  | s, c :: cs =>
    if p c then
      let r := step s c
      r.1 :: tiledFold p step r.2 cs
    else
      c :: tiledFold p step s cs

/-- `tile` (dynamd.c 504-539). -/
def tile (m : LMon) : LMon :=
  match getgaps m with
  | (oh, ov, ih, iv, n) =>
    if n = 0 then m
    else
      let mx := m.wx + ov
      let my0 := m.wy + oh
      let mh := m.wh - 2 * oh - ih * ((min n m.nmaster : Nat) - 1 : Int)
      let sh := m.wh - 2 * oh - ih * ((n : Int) - (m.nmaster : Int) - 1)
      let mw0 := m.ww - 2 * ov
      let (mw, sw, sx) :=
        if m.nmaster ≠ 0 ∧ n > m.nmaster then
          let sw := ratTrunc (((mw0 - iv : Int) : ℚ) * (1 - m.mfact))
          (mw0 - iv - sw, sw, mx + (mw0 - iv - sw) + iv)
        else (mw0, mw0, mx)
      match getfacts m mh sh with
      | (mfacts, sfacts, mrest, srest) =>
        let step : Nat × Int × Int → LClient → LClient × (Nat × Int × Int) :=
          fun s c =>
            let i := s.1
            let my := s.2.1
            let sy := s.2.2
            if i < m.nmaster then
              let c2 := resize m c mx my (mw - 2 * c.bw)
                (tileSlice mh mfacts mrest i - 2 * c.bw) false
              (c2, (i + 1, my + heightOf c2 + ih, sy))
            else
              let c2 := resize m c sx sy (sw - 2 * c.bw)
                (tileSlice sh sfacts srest (i - m.nmaster) - 2 * c.bw) false
              (c2, (i + 1, my, sy + heightOf c2 + ih))
        { m with clients := tiledFold (isTiled m) step (0, my0, my0) m.clients }

/-- `monocle` (dynamd.c 486-501); the `[M n]` layout-symbol rewrite is
bar-level. -/
def monocle (m : LMon) : LMon :=
  let step : Unit → LClient → LClient × Unit := fun _ c =>
    (resize m c m.wx m.wy (m.ww - 2 * c.bw) (m.wh - 2 * c.bw) false, ())
  { m with clients := tiledFold (isTiled m) step () m.clients }

/-- `deck` (dynamd.c 542-581); the `[D n]` layout-symbol rewrite is
bar-level. -/
def deck (m : LMon) : LMon :=
  match getgaps m with
  | (oh, ov, ih, iv, n) =>
    if n = 0 then m
    else
      let mx := m.wx + ov
      let my0 := m.wy + oh
      let mh0 := m.wh - 2 * oh - ih * ((min n m.nmaster : Nat) - 1 : Int)
      let mw0 := m.ww - 2 * ov
      let (mw, sw, sx, sh) :=
        if m.nmaster ≠ 0 ∧ n > m.nmaster then
          let sw := ratTrunc (((mw0 - iv : Int) : ℚ) * (1 - m.mfact))
          (mw0 - iv - sw, sw, mx + (mw0 - iv - sw) + iv, m.wh - 2 * oh)
        else (mw0, mw0, mx, mh0)
      match getfacts m mh0 sh with
      | (mfacts, _sfacts, mrest, _srest) =>
        let step : Nat × Int → LClient → LClient × (Nat × Int) :=
          fun s c =>
            let i := s.1
            let my := s.2
            if i < m.nmaster then
              let c2 := resize m c mx my (mw - 2 * c.bw)
                (tileSlice mh0 mfacts mrest i - 2 * c.bw) false
              (c2, (i + 1, my + heightOf c2 + ih))
            else
              let c2 := resize m c sx my0 (sw - 2 * c.bw) (sh - 2 * c.bw) false
              (c2, (i + 1, my))
        { m with clients := tiledFold (isTiled m) step (0, my0) m.clients }

/-- `fibonacci` (dynamd.c 584-669), shared by `dwindle` (`s = true`) and
`spiral` (`s = false`).  The loop state is `(i, r, nx, ny, nw, nh, hrest,
wrest)`; once `r` drops to 0 the state freezes and every remaining client
receives the same rectangle. -/
def fibonacci (m : LMon) (s : Bool) : LMon :=
  match getgaps m with
  | (oh, ov, ih, iv, n) =>
    if n = 0 then m
    else
      let nx0 := m.wx + ov
      let ny0 := m.wy + oh
      let nw0 := m.ww - 2 * ov
      let nh0 := m.wh - 2 * oh
      let step : (Nat × Bool × Int × Int × Int × Int × Int × Int) → LClient →
          LClient × (Nat × Bool × Int × Int × Int × Int × Int × Int) :=
        fun st c =>
          let (i, r, nx, ny, nw, nh, hrest, wrest) := st
          if r then
            let r1 := if (i % 2 = 1 ∧ cdiv (nh - ih) 2 ≤ m.bh + 2 * c.bw) ∨
                         (i % 2 = 0 ∧ cdiv (nw - iv) 2 ≤ m.bh + 2 * c.bw)
                      then false else r
            let (nx1, ny1, nw1, nh1, hrest1, wrest1) :=
              if r1 = true ∧ i < n - 1 then
                let (nw2, nh2, hrest2, wrest2) :=
                  if i % 2 = 1 then
                    let nv := cdiv (nh - ih) 2
                    (nw, nv, nh - 2 * nv - ih, wrest)
                  else
                    let nv := cdiv (nw - iv) 2
                    (nv, nh, hrest, nw - 2 * nv - iv)
                if i % 4 = 2 ∧ s = false then
                  (nx + nw2 + iv, ny, nw2, nh2, hrest2, wrest2)
                else if i % 4 = 3 ∧ s = false then
                  (nx, ny + nh2 + ih, nw2, nh2, hrest2, wrest2)
                else (nx, ny, nw2, nh2, hrest2, wrest2)
              else (nx, ny, nw, nh, hrest, wrest)
            let (nx2, ny2, nw2, nh2) :=
              if i % 4 = 0 then
                if s then (nx1, ny1 + nh1 + ih, nw1, nh1 + hrest1)
                else (nx1, ny1 - (nh1 - hrest1) - ih, nw1, nh1 - hrest1)
              else if i % 4 = 1 then (nx1 + nw1 + iv, ny1, nw1 + wrest1, nh1)
              else if i % 4 = 2 then
                (nx1, ny1 + nh1 + ih,
                 if i < n - 1 then nw1 + wrest1 else nw1, nh1 + hrest1)
              else
                if s then (nx1 + nw1 + iv, ny1, nw1 - wrest1, nh1)
                else (nx1 - (nw1 - wrest1) - iv, ny1, nw1 - wrest1, nh1 + hrest1)
            let (ny3, nw3, wrest3) :=
              if i = 0 then
                if n ≠ 1 then
                  (m.wy + oh,
                   ratTrunc (((m.ww - iv - 2 * ov : Int) : ℚ) -
                     ((m.ww - iv - 2 * ov : Int) : ℚ) * (1 - m.mfact)), 0)
                else (m.wy + oh, nw2, wrest1)
              else if i = 1 then (ny2, m.ww - nw2 - iv - 2 * ov, wrest1)
              else (ny2, nw2, wrest1)
            let c2 := resize m c nx2 ny3 (nw3 - 2 * c.bw) (nh2 - 2 * c.bw) false
            (c2, (i + 1, r1, nx2, ny3, nw3, nh2, hrest1, wrest3))
          else
            let c2 := resize m c nx ny (nw - 2 * c.bw) (nh - 2 * c.bw) false
            (c2, st)
      { m with clients :=
          tiledFold (isTiled m) step (0, true, nx0, ny0, nw0, nh0, 0, 0) m.clients }

/-- `dwindle` (dynamd.c 672-674). -/
def dwindle (m : LMon) : LMon := fibonacci m true

/-- `spiral` (dynamd.c 677-679). -/
def spiral (m : LMon) : LMon := fibonacci m false

/-- `for (rows = 0; rows <= n/2; rows++) if (rows*rows >= n) break;` from
`grid`/`gaplessgrid`, fuel-structural. -/
def gridDimF : Nat → Nat → Nat → Nat
  | 0, r, _ => r
  | fuel + 1, r, n =>
    if r ≤ n / 2 then (if r * r ≥ n then r else gridDimF fuel (r + 1) n) else r

/-- The square-root-ish grid dimension search. -/
def gridDim (n : Nat) : Nat := gridDimF (n / 2 + 2) 0 n

/-- `grid` (dynamd.c 682-712). -/
def grid (m : LMon) : LMon :=
  match getgaps m with
  | (oh, ov, ih, iv, n) =>
    let rows := gridDim n
    let cols := if rows ≠ 0 ∧ (rows - 1) * rows ≥ n then rows - 1 else rows
    let ch := cdiv (m.wh - 2 * oh - ih * ((rows : Int) - 1))
      (if rows ≠ 0 then (rows : Int) else 1)
    let cw := cdiv (m.ww - 2 * ov - iv * ((cols : Int) - 1))
      (if cols ≠ 0 then (cols : Int) else 1)
    let chrest := (m.wh - 2 * oh - ih * ((rows : Int) - 1)) - ch * (rows : Int)
    let cwrest := (m.ww - 2 * ov - iv * ((cols : Int) - 1)) - cw * (cols : Int)
    let step : Nat → LClient → LClient × Nat := fun i c =>
      let cc := i / rows
      let cr := i % rows
      let cx := m.wx + ov + (cc : Int) * (cw + iv) + min (cc : Int) cwrest
      let cy := m.wy + oh + (cr : Int) * (ch + ih) + min (cr : Int) chrest
      (resize m c cx cy (cw + (if (cc : Int) < cwrest then 1 else 0) - 2 * c.bw)
        (ch + (if (cr : Int) < chrest then 1 else 0) - 2 * c.bw) false, i + 1)
    { m with clients := tiledFold (isTiled m) step 0 m.clients }

/-- `horizgrid` (dynamd.c 715-763). -/
def horizgrid (m : LMon) : LMon :=
  match getgaps m with
  | (oh, ov, ih, iv, n) =>
    if n = 0 then m
    else
      let ntop := if n ≤ 2 then n else n / 2
      let nbottom := if n ≤ 2 then 1 else n - n / 2
      let mx0 := m.wx + ov
      let my := m.wy + oh
      let mh0 := m.wh - 2 * oh
      let mw0 := m.ww - 2 * ov
      let (mh, sh, sy, mw, sw) :=
        if n > ntop then
          let sh := cdiv (mh0 - ih) 2
          let mh := mh0 - ih - sh
          (mh, sh, my + mh + ih,
           m.ww - 2 * ov - iv * ((ntop : Int) - 1),
           m.ww - 2 * ov - iv * ((nbottom : Int) - 1))
        else (mh0, mh0, my, mw0, mw0)
      let mfacts : ℚ := (ntop : ℚ)
      let sfacts : ℚ := (nbottom : ℚ)
      let mrest := mw - cdiv mw (ntop : Int) * (ntop : Int)
      let srest := sw - cdiv sw (nbottom : Int) * (nbottom : Int)
      let step : Nat × Int × Int → LClient → LClient × (Nat × Int × Int) :=
        fun s c =>
          let (i, mxx, sxx) := s
          if i < ntop then
            let c2 := resize m c mxx my (tileSlice mw mfacts mrest i - 2 * c.bw)
              (mh - 2 * c.bw) false
            (c2, (i + 1, mxx + widthOf c2 + iv, sxx))
          else
            let c2 := resize m c sxx sy
              (tileSlice sw sfacts srest (i - ntop) - 2 * c.bw) (sh - 2 * c.bw) false
            (c2, (i + 1, mxx, sxx + widthOf c2 + iv))
      { m with clients := tiledFold (isTiled m) step (0, mx0, mx0) m.clients }

/-- `gaplessgrid` (dynamd.c 766-818); the loop state is
`(i, rows, ch, rrest, x, rn, cn)` because the row count is re-derived once
the short columns start.  The column step reuses `ih` exactly as the C
does on line 814. -/
def gaplessgrid (m : LMon) : LMon :=
  match getgaps m with
  | (oh, ov, ih, iv, n) =>
    if n = 0 then m
    else
      let cols := if n = 5 then 2 else gridDim n
      let rows0 := n / cols
      let ch0 := cdiv (m.wh - 2 * oh - ih * ((rows0 : Int) - 1)) (rows0 : Int)
      let cw := cdiv (m.ww - 2 * ov - iv * ((cols : Int) - 1)) (cols : Int)
      let rrest0 := (m.wh - 2 * oh - ih * ((rows0 : Int) - 1)) - ch0 * (rows0 : Int)
      let crest := (m.ww - 2 * ov - iv * ((cols : Int) - 1)) - cw * (cols : Int)
      let x0 := m.wx + ov
      let y0 := m.wy + oh
      let step : (Nat × Nat × Int × Int × Int × Nat × Nat) → LClient →
          LClient × (Nat × Nat × Int × Int × Int × Nat × Nat) :=
        fun st c =>
          let (i, rows, ch, rrest, x, rn, cn) := st
          let (rows1, ch1, rrest1) :=
            if i / rows + 1 > cols - n % cols then
              let r2 := n / cols + 1
              let base := m.wh - 2 * oh - ih * ((r2 : Int) - 1)
              let ch2 := cdiv base (r2 : Int)
              (r2, ch2, base - ch2 * (r2 : Int))
            else (rows, ch, rrest)
          let c2 := resize m c x (y0 + (rn : Int) * (ch1 + ih) + min (rn : Int) rrest1)
            (cw + (if (cn : Int) < crest then 1 else 0) - 2 * c.bw)
            (ch1 + (if (rn : Int) < rrest1 then 1 else 0) - 2 * c.bw) false
          let (rn2, x2, cn2) :=
            if rn + 1 ≥ rows1 then
              (0, x + cw + ih + (if (cn : Int) < crest then 1 else 0), cn + 1)
            else (rn + 1, x, cn)
          (c2, (i + 1, rows1, ch1, rrest1, x2, rn2, cn2))
      { m with clients :=
          tiledFold (isTiled m) step (0, rows0, ch0, rrest0, x0, 0, 0) m.clients }

/-- `bstack` (dynamd.c 821-858). -/
def bstack (m : LMon) : LMon :=
  match getgaps m with
  | (oh, ov, ih, iv, n) =>
    if n = 0 then m
    else
      let mx := m.wx + ov
      let my := m.wy + oh
      let mh0 := m.wh - 2 * oh
      let mw := m.ww - 2 * ov - iv * ((min n m.nmaster : Nat) - 1 : Int)
      let sw := m.ww - 2 * ov - iv * ((n : Int) - (m.nmaster : Int) - 1)
      let (mh, sh, sy) :=
        if m.nmaster ≠ 0 ∧ n > m.nmaster then
          let sh := ratTrunc (((mh0 - ih : Int) : ℚ) * (1 - m.mfact))
          (mh0 - ih - sh, sh, my + (mh0 - ih - sh) + ih)
        else (mh0, mh0, my)
      match getfacts m mw sw with
      | (mfacts, sfacts, mrest, srest) =>
        let step : Nat × Int × Int → LClient → LClient × (Nat × Int × Int) :=
          fun s c =>
            let (i, mxx, sxx) := s
            if i < m.nmaster then
              let c2 := resize m c mxx my (tileSlice mw mfacts mrest i - 2 * c.bw)
                (mh - 2 * c.bw) false
              (c2, (i + 1, mxx + widthOf c2 + iv, sxx))
            else
              let c2 := resize m c sxx sy
                (tileSlice sw sfacts srest (i - m.nmaster) - 2 * c.bw)
                (sh - 2 * c.bw) false
              (c2, (i + 1, mxx, sxx + widthOf c2 + iv))
        { m with clients := tiledFold (isTiled m) step (0, mx, mx) m.clients }

/-- `bstackhoriz` (dynamd.c 861-899). -/
def bstackhoriz (m : LMon) : LMon :=
  match getgaps m with
  | (oh, ov, ih, iv, n) =>
    if n = 0 then m
    else
      let mx := m.wx + ov
      let my := m.wy + oh
      let mh0 := m.wh - 2 * oh
      let sh0 := m.wh - 2 * oh - ih * ((n : Int) - (m.nmaster : Int) - 1)
      let mw := m.ww - 2 * ov - iv * ((min n m.nmaster : Nat) - 1 : Int)
      let sw := m.ww - 2 * ov
      let (mh, sh, sy) :=
        if m.nmaster ≠ 0 ∧ n > m.nmaster then
          let t := ratTrunc (((mh0 - ih : Int) : ℚ) * (1 - m.mfact))
          let mh := mh0 - ih - t
          (mh, m.wh - mh - 2 * oh - ih * ((n : Int) - (m.nmaster : Int)),
           my + mh + ih)
        else (mh0, sh0, my)
      match getfacts m mw sh with
      | (mfacts, sfacts, mrest, srest) =>
        let step : Nat × Int × Int → LClient → LClient × (Nat × Int × Int) :=
          fun s c =>
            let (i, mxx, syy) := s
            if i < m.nmaster then
              let c2 := resize m c mxx my (tileSlice mw mfacts mrest i - 2 * c.bw)
                (mh - 2 * c.bw) false
              (c2, (i + 1, mxx + widthOf c2 + iv, syy))
            else
              let c2 := resize m c mx syy (sw - 2 * c.bw)
                (tileSlice sh sfacts srest (i - m.nmaster) - 2 * c.bw) false
              (c2, (i + 1, mxx, syy + heightOf c2 + ih))
        { m with clients := tiledFold (isTiled m) step (0, mx, sy) m.clients }

/-- `centeredmaster` (dynamd.c 398-483).  The three stacks (master center,
left, right) carry their own factors, truncating totals and remainders,
exactly as the inline loops do; the odd/even split of stack clients uses
the unsigned wrap of `i - 2 * nmaster`. -/
def centeredmaster (m : LMon) : LMon :=
  match getgaps m with
  | (oh, ov, ih, iv, n) =>
    if n = 0 then m
    else
      let mx0 := m.wx + ov
      let my0 := m.wy + oh
      let mh := m.wh - 2 * oh - ih *
        (((if m.nmaster = 0 then n else min n m.nmaster) : Int) - 1)
      let mw0 := m.ww - 2 * ov
      let lh := m.wh - 2 * oh - ih * (((u32sub n m.nmaster / 2 : Nat) : Int) - 1)
      let rh := m.wh - 2 * oh - ih * (((u32sub n m.nmaster / 2 : Nat) : Int) -
        (if u32sub n m.nmaster % 2 = 1 then 0 else 1))
      let (mx, mw, lx, ly, lw, rx, ry, rw) :=
        if m.nmaster ≠ 0 ∧ n > m.nmaster then
          let (mw1, lw1, rw1, mx1) :=
            if n - m.nmaster > 1 then
              let mw1 := ratTrunc (((m.ww - 2 * ov - 2 * iv : Int) : ℚ) * m.mfact)
              let lw1 := cdiv (m.ww - mw1 - 2 * ov - 2 * iv) 2
              (mw1, lw1, (m.ww - mw1 - 2 * ov - 2 * iv) - lw1, mx0 + lw1 + iv)
            else
              let mw1 := ratTrunc (((mw0 - iv : Int) : ℚ) * m.mfact)
              (mw1, 0, m.ww - mw1 - iv - 2 * ov, mx0)
          (mx1, mw1, m.wx + ov, m.wy + oh, lw1, mx1 + mw1 + iv, m.wy + oh, rw1)
        else (mx0, mw0, 0, 0, 0, 0, 0, 0)
      let isMasterIdx : Nat → Bool := fun j => decide (m.nmaster = 0 ∨ j < m.nmaster)
      let isLeftIdx : Nat → Bool := fun j =>
        !isMasterIdx j && decide ((j - m.nmaster) % 2 = 1)
      let mfacts : ℚ := (((List.range n).countP isMasterIdx : Nat) : ℚ)
      let lfacts : ℚ := (((List.range n).countP isLeftIdx : Nat) : ℚ)
      let rfacts : ℚ :=
        (((List.range n).countP (fun j => !isMasterIdx j && !isLeftIdx j) : Nat) : ℚ)
      let tot := (List.range n).foldl
        (fun (tot : Int × Int × Int) (j : Nat) =>
          if isMasterIdx j then
            (ratTrunc ((tot.1 : ℚ) + (mh : ℚ) / mfacts), tot.2.1, tot.2.2)
          else if isLeftIdx j then
            (tot.1, ratTrunc ((tot.2.1 : ℚ) + (lh : ℚ) / lfacts), tot.2.2)
          else
            (tot.1, tot.2.1, ratTrunc ((tot.2.2 : ℚ) + (rh : ℚ) / rfacts)))
        (0, 0, 0)
      let mrest := mh - tot.1
      let lrest := lh - tot.2.1
      let rrest := rh - tot.2.2
      let step : Nat × Int × Int × Int → LClient → LClient × (Nat × Int × Int × Int) :=
        fun s c =>
          let (i, my, ly2, ry2) := s
          if isMasterIdx i then
            let c2 := resize m c mx my (mw - 2 * c.bw)
              (tileSlice mh mfacts mrest i - 2 * c.bw) false
            (c2, (i + 1, my + heightOf c2 + ih, ly2, ry2))
          else if (i - m.nmaster) % 2 = 1 then
            let c2 := resize m c lx ly2 (lw - 2 * c.bw)
              (ratTrunc ((lh : ℚ) / lfacts) +
                (if u32sub i (2 * m.nmaster) < u32int (2 * lrest) then 1 else 0)
                - 2 * c.bw) false
            (c2, (i + 1, my, ly2 + heightOf c2 + ih, ry2))
          else
            let c2 := resize m c rx ry2 (rw - 2 * c.bw)
              (ratTrunc ((rh : ℚ) / rfacts) +
                (if u32sub i (2 * m.nmaster) < u32int (2 * rrest) then 1 else 0)
                - 2 * c.bw) false
            (c2, (i + 1, my, ly2, ry2 + heightOf c2 + ih))
      { m with clients := tiledFold (isTiled m) step (0, my0, ly, ry) m.clients }

/-- `centeredfloatingmaster` (dynamd.c 902-952); the master row advances
by `WIDTH(c) + iv * mivf` accumulated in float and truncated back. -/
def centeredfloatingmaster (m : LMon) : LMon :=
  match getgaps m with
  | (oh, ov, ih, iv, n) =>
    if n = 0 then m
    else
      let mx0 := m.wx + ov
      let my0 := m.wy + oh
      let mh0 := m.wh - 2 * oh
      let mw0 := m.ww - 2 * ov - iv * ((n : Int) - 1)
      let sw := m.ww - 2 * ov - iv * ((n : Int) - (m.nmaster : Int) - 1)
      let (mivf, mx, my, mw, mh, sx, sy, sh) :=
        if m.nmaster ≠ 0 ∧ n > m.nmaster then
          let mivf : ℚ := 8/10
          let (mw1, mh1) :=
            if m.ww > m.wh then
              (ratTrunc ((m.ww : ℚ) * m.mfact -
                 (iv : ℚ) * mivf * (((min n m.nmaster : Nat) : ℚ) - 1)),
               ratTrunc ((m.wh : ℚ) * (9/10)))
            else
              (ratTrunc ((m.ww : ℚ) * (9/10) -
                 (iv : ℚ) * mivf * (((min n m.nmaster : Nat) : ℚ) - 1)),
               ratTrunc ((m.wh : ℚ) * m.mfact))
          (mivf, m.wx + cdiv (m.ww - mw1) 2, m.wy + cdiv (m.wh - mh1 - 2 * oh) 2,
           mw1, mh1, m.wx + ov, m.wy + oh, m.wh - 2 * oh)
        else ((1 : ℚ), mx0, my0, mw0, mh0, mx0, my0, mh0)
      match getfacts m mw sw with
      | (mfacts, sfacts, mrest, srest) =>
        let step : Nat × Int × Int → LClient → LClient × (Nat × Int × Int) :=
          fun s c =>
            let (i, mxx, sxx) := s
            if i < m.nmaster then
              let c2 := resize m c mxx my (tileSlice mw mfacts mrest i - 2 * c.bw)
                (mh - 2 * c.bw) false
              (c2, (i + 1, ratTrunc ((mxx : ℚ) + (widthOf c2 : ℚ) + (iv : ℚ) * mivf), sxx))
            else
              let c2 := resize m c sxx sy
                (tileSlice sw sfacts srest (i - m.nmaster) - 2 * c.bw)
                (sh - 2 * c.bw) false
              (c2, (i + 1, mxx, sxx + widthOf c2 + iv))
        { m with clients := tiledFold (isTiled m) step (0, mx, sx) m.clients }

/-! ### C10: `togglefloating` guards -/

/-- C10: `togglefloating` changes nothing when no client is selected, and
changes nothing when the selected client is fullscreen. -/
theorem togglefloating_noop (m : LMon) :
    (m.sel = none → togglefloating m = m) ∧
    (∀ cid c, m.sel = some cid → findClient m cid = some c →
      c.isfullscreen = true → togglefloating m = m) := by
  constructor
  · intro h
    unfold togglefloating
    rw [h]
  · intro cid c h1 h2 h3
    unfold togglefloating
    rw [h1]
    show (match findClient m cid with
      | none => m
      | some c => _) = m
    rw [h2]
    show (if c.isfullscreen then m else _) = m
    rw [h3]
    exact if_pos rfl

/-- A concrete monitor with one fullscreen client selected. -/
def lmonFS : LMon :=
  { clients := [{ id := 7, isfullscreen := true }], sel := some 7 }

/-- Witness for C10: both guard branches at concrete states. -/
theorem togglefloating_noop_witness :
    (({ } : LMon).sel = none ∧ togglefloating { } = { }) ∧
    (lmonFS.sel = some 7 ∧
      findClient lmonFS 7 = some { id := 7, isfullscreen := true } ∧
      togglefloating lmonFS = lmonFS) :=
  ⟨⟨rfl, (togglefloating_noop { }).1 rfl⟩,
   ⟨rfl, by decide,
    (togglefloating_noop lmonFS).2 7 { id := 7, isfullscreen := true }
      rfl (by decide) rfl⟩⟩

/-! ### C8: `setmfact` clamping -/

/-- C8: with the candidate `f` computed as in the code (`arg.f + mfact`
for relative arguments below 1.0, `arg.f - 1.0` otherwise), `setmfact`
leaves the monitor and pertag table unchanged whenever `f` lies outside
`[0.1, 0.9]` (and on a null arg or floating layout), and otherwise
installs exactly `f`; consequently `mfact` stays in `[0.1, 0.9]`. -/
theorem setmfact_clamped (m : LMon) (pt : Nat → ℚ) (curtag : Nat) (f0 : ℚ)
    (hm : 1/10 ≤ m.mfact ∧ m.mfact ≤ 9/10) :
    (setmfact m pt curtag none = (m, pt)) ∧
    (m.arrangeIsNull = true → setmfact m pt curtag (some f0) = (m, pt)) ∧
    (m.arrangeIsNull = false →
      (let f := if f0 < 1 then f0 + m.mfact else f0 - 1
       ((f < 1/10 ∨ 9/10 < f) → setmfact m pt curtag (some f0) = (m, pt)) ∧
       (¬(f < 1/10 ∨ 9/10 < f) →
         (setmfact m pt curtag (some f0)).1.mfact = f ∧
         (setmfact m pt curtag (some f0)).2 = Function.update pt curtag f))) ∧
    (1/10 ≤ (setmfact m pt curtag (some f0)).1.mfact ∧
      (setmfact m pt curtag (some f0)).1.mfact ≤ 9/10) := by
  refine ⟨rfl, ?_, ?_, ?_⟩
  · intro h
    unfold setmfact
    rw [h]
    exact if_pos rfl
  · intro h
    intro f
    constructor
    · intro hout
      unfold setmfact
      rw [h]
      simp only [Bool.false_eq_true, if_false, ite_false]
      exact if_pos hout
    · intro hin
      unfold setmfact
      rw [h]
      simp only [Bool.false_eq_true, if_false, ite_false]
      rw [if_neg hin]
      exact ⟨rfl, rfl⟩
  · unfold setmfact
    by_cases h : m.arrangeIsNull
    · rw [h]
      simpa using hm
    · simp only [Bool.not_eq_true] at h
      rw [h]
      simp only [Bool.false_eq_true, if_false, ite_false]
      by_cases hout : (if f0 < 1 then f0 + m.mfact else f0 - 1) < 1/10 ∨
          9/10 < (if f0 < 1 then f0 + m.mfact else f0 - 1)
      · rw [if_pos hout]
        exact hm
      · rw [if_neg hout]
        push_neg at hout
        exact hout

/-- Witness for C8: mfact 0.56 raised by the relative argument +0.05. -/
theorem setmfact_clamped_witness :
    (1/10 ≤ ({ } : LMon).mfact ∧ ({ } : LMon).mfact ≤ 9/10) ∧
    (1/10 ≤ (setmfact { } (fun _ => 56/100) 1 (some (5/100))).1.mfact ∧
      (setmfact { } (fun _ => 56/100) 1 (some (5/100))).1.mfact ≤ 9/10) :=
  ⟨by norm_num, (setmfact_clamped { } (fun _ => 56/100) 1 (5/100)
    (by norm_num)).2.2.2⟩

/-! ### C3: the fullscreen toggle is an involution -/

theorem resizeclient_flags (m : LMon) (c : LClient) (x y w h : Int) :
    (resizeclient m c x y w h).id = c.id ∧
    (resizeclient m c x y w h).isfloating = c.isfloating ∧
    (resizeclient m c x y w h).tags = c.tags ∧
    (resizeclient m c x y w h).isfullscreen = c.isfullscreen ∧
    (resizeclient m c x y w h).bw = c.bw ∧
    (resizeclient m c x y w h).oldbw = c.oldbw ∧
    (resizeclient m c x y w h).oldstate = c.oldstate := by
  unfold resizeclient
  split <;> exact ⟨rfl, rfl, rfl, rfl, rfl, rfl, rfl⟩

/-- Without the border-collapse case, `resizeclient` installs exactly the
requested rectangle and archives the previous one. -/
theorem resizeclient_rect (m : LMon) (c : LClient) (x y w h : Int)
    (hnb : noborder m c = false) :
    (resizeclient m c x y w h).x = x ∧ (resizeclient m c x y w h).y = y ∧
    (resizeclient m c x y w h).w = w ∧ (resizeclient m c x y w h).h = h ∧
    (resizeclient m c x y w h).oldx = c.x ∧ (resizeclient m c x y w h).oldy = c.y ∧
    (resizeclient m c x y w h).oldw = c.w ∧ (resizeclient m c x y w h).oldh = c.h := by
  unfold resizeclient
  rw [hnb]
  exact ⟨rfl, rfl, rfl, rfl, rfl, rfl, rfl, rfl⟩

theorem findClient_updClient (m : LMon) (cid : Nat) (f : LClient → LClient)
    (hid : ∀ c, (f c).id = c.id) :
    findClient (updClient m cid f) cid = (findClient m cid).map f := by
  show (m.clients.map (fun c => if c.id = cid then f c else c)).find?
      (fun c => c.id == cid) = (m.clients.find? (fun c => c.id == cid)).map f
  induction m.clients with
  | nil => rfl
  | cons c cs ih =>
    by_cases hc : c.id = cid
    · rw [List.map_cons, if_pos hc, List.find?_cons_of_pos, List.find?_cons_of_pos]
      · rfl
      · simp [hc]
      · simp [hid c, hc]
    · rw [List.map_cons, if_neg hc, List.find?_cons_of_neg, List.find?_cons_of_neg]
      · exact ih
      · simp [hc]
      · simp [hc]

theorem restAfter_map (g : LClient → LClient) (hid : ∀ c, (g c).id = c.id) :
    ∀ (l : List LClient) (cid : Nat),
      restAfter (l.map g) cid = (restAfter l cid).map g := by
  intro l
  induction l with
  | nil => intro cid; rfl
  | cons c cs ih =>
    intro cid
    show restAfter (g c :: cs.map g) cid = _
    unfold restAfter
    rw [hid c]
    by_cases hc : c.id = cid
    · rw [if_pos hc, if_pos hc]
    · rw [if_neg hc, if_neg hc]
      exact ih cid

theorem nexttiled_map (m m2 : LMon) (g : LClient → LClient)
    (hg : ∀ c, (g c).id = c.id ∧ (g c).isfloating = c.isfloating ∧ (g c).tags = c.tags)
    (hts : m2.tagsetActive = m.tagsetActive) :
    ∀ l : List LClient,
      (nexttiled m2 (l.map g)).map LClient.id = (nexttiled m l).map LClient.id := by
  intro l
  induction l with
  | nil => rfl
  | cons c cs ih =>
    show (nexttiled m2 (g c :: cs.map g)).map _ = (nexttiled m (c :: cs)).map _
    unfold nexttiled
    have ht : isTiled m2 (g c) = isTiled m c := by
      unfold isTiled visible
      rw [(hg c).2.1, (hg c).2.2, hts]
    rw [ht]
    by_cases h : isTiled m c = true
    · rw [if_pos h, if_pos h]
      show some ((g c).id) = some c.id
      rw [(hg c).1]
    · rw [Bool.not_eq_true] at h
      rw [h]
      exact ih

theorem soleOrMonocle_map (m m2 : LMon) (g : LClient → LClient) (cid : Nat)
    (hg : ∀ c, (g c).id = c.id ∧ (g c).isfloating = c.isfloating ∧ (g c).tags = c.tags)
    (hts : m2.tagsetActive = m.tagsetActive)
    (hmono : m2.arrangeIsMonocle = m.arrangeIsMonocle)
    (hcl : m2.clients = m.clients.map g) :
    soleOrMonocle m2 cid = soleOrMonocle m cid := by
  unfold soleOrMonocle
  rw [hcl, hmono, restAfter_map g (fun c => (hg c).1),
    nexttiled_map m m2 g hg hts m.clients,
    nexttiled_map m m2 g hg hts (restAfter m.clients cid)]

/-- The pointwise effect on a list entry of the three `updClient` passes a
full `setfullscreen` round trip performs. -/
theorem composite_step (m1 : LMon) (cid : Nat) (mx my mw mh : Int) (c0 : LClient) :
    (fun d => if d.id = cid then fsLeave d else d)
      ((fun d => if d.id = cid then resizeclient m1 d mx my mw mh else d)
        ((fun d => if d.id = cid then fsEnter d else d) c0))
    = if c0.id = cid then fsLeave (resizeclient m1 (fsEnter c0) mx my mw mh)
      else c0 := by
  by_cases h : c0.id = cid
  · have e1 : (fsEnter c0).id = cid := h
    have e2 : (resizeclient m1 (fsEnter c0) mx my mw mh).id = cid := by
      rw [(resizeclient_flags m1 (fsEnter c0) mx my mw mh).1]
      exact h
    have s1 : (fun d => if d.id = cid then fsEnter d else d) c0 = fsEnter c0 := by
      show (if c0.id = cid then fsEnter c0 else c0) = fsEnter c0
      exact if_pos h
    rw [s1]
    have s2 : (fun d => if d.id = cid then resizeclient m1 d mx my mw mh else d)
        (fsEnter c0) = resizeclient m1 (fsEnter c0) mx my mw mh := by
      show (if (fsEnter c0).id = cid then _ else _) = _
      exact if_pos e1
    rw [s2]
    have s3 : (fun d => if d.id = cid then fsLeave d else d)
        (resizeclient m1 (fsEnter c0) mx my mw mh)
        = fsLeave (resizeclient m1 (fsEnter c0) mx my mw mh) := by
      show (if (resizeclient m1 (fsEnter c0) mx my mw mh).id = cid then _ else _) = _
      exact if_pos e2
    rw [s3, if_pos h]
  · have s1 : (fun d => if d.id = cid then fsEnter d else d) c0 = c0 := by
      show (if c0.id = cid then fsEnter c0 else c0) = c0
      exact if_neg h
    rw [s1]
    have s2 : (fun d => if d.id = cid then resizeclient m1 d mx my mw mh else d) c0
        = c0 := by
      show (if c0.id = cid then _ else _) = _
      exact if_neg h
    rw [s2]
    have s3 : (fun d => if d.id = cid then fsLeave d else d) c0 = c0 := by
      show (if c0.id = cid then _ else _) = _
      exact if_neg h
    rw [s3, if_neg h]

/-- Unfolding of the fullscreen-exit branch of `setfullscreen`. -/
theorem setfullscreen_exit (M : LMon) (cid : Nat) (cA : LClient)
    (hfindA : findClient M cid = some cA)
    (hAfs : cA.isfullscreen = true)
    (hfindB : findClient (updClient M cid fsLeave) cid = some (fsLeave cA)) :
    setfullscreen M cid false =
      resizeclientM (updClient M cid fsLeave) cid
        (fsLeave cA).x (fsLeave cA).y (fsLeave cA).w (fsLeave cA).h := by
  simp only [setfullscreen, hfindA, hAfs, hfindB, Bool.false_and, Bool.not_false,
    Bool.and_self, Bool.true_and, Bool.false_eq_true, if_false, ite_false,
    if_true, ite_true]

/-- C3: on a non-fullscreen, non-floating client that does not fall under
the sole-tiled/monocle border collapse, `setfullscreen(c, 1)` followed by
`setfullscreen(c, 0)` restores `(isfloating, bw, x, y, w, h)` exactly. -/
theorem setfullscreen_involution (m : LMon) (cid : Nat) (c : LClient)
    (hfind : findClient m cid = some c)
    (hfs : c.isfullscreen = false)
    (hfl : c.isfloating = false)
    (hnb : soleOrMonocle m cid = false) :
    ∃ c2, findClient (setfullscreen (setfullscreen m cid true) cid false) cid
        = some c2 ∧
      c2.isfloating = c.isfloating ∧ c2.bw = c.bw ∧
      c2.x = c.x ∧ c2.y = c.y ∧ c2.w = c.w ∧ c2.h = c.h := by
  classical
  have hcid : c.id = cid := by simpa using List.find?_some hfind
  -- the two field rewrites of setfullscreen
  have hidF1 : ∀ c0 : LClient, (fsEnter c0).id = c0.id := fun _ => rfl
  have hidF2 : ∀ c0 : LClient, (fsLeave c0).id = c0.id := fun _ => rfl
  -- stage 1: enter fullscreen
  have h1 : setfullscreen m cid true =
      resizeclientM (updClient m cid fsEnter) cid m.mx m.my m.mw m.mh := by
    simp only [setfullscreen, hfind, hfs, Bool.not_false, Bool.and_self, if_true,
      ite_true]
  set m1 : LMon := updClient m cid fsEnter with hm1
  set cA : LClient := resizeclient m1 (fsEnter c) m.mx m.my m.mw m.mh with hcA
  have hfindA : findClient (setfullscreen m cid true) cid = some cA := by
    rw [h1]
    unfold resizeclientM
    rw [findClient_updClient _ _ _
      (fun c0 => (resizeclient_flags m1 c0 m.mx m.my m.mw m.mh).1)]
    rw [hm1, findClient_updClient _ _ _ hidF1, hfind]
    rfl
  have hAfs : cA.isfullscreen = true := by
    rw [hcA, (resizeclient_flags m1 (fsEnter c) m.mx m.my m.mw m.mh).2.2.2.1]
    rfl
  -- stage 2: leave fullscreen
  have hfindB : findClient (updClient (setfullscreen m cid true) cid fsLeave) cid
      = some (fsLeave cA) := by
    rw [findClient_updClient _ _ _ hidF2, hfindA]
    rfl
  have h2 : setfullscreen (setfullscreen m cid true) cid false =
      resizeclientM (updClient (setfullscreen m cid true) cid fsLeave) cid
        (fsLeave cA).x (fsLeave cA).y (fsLeave cA).w (fsLeave cA).h :=
    setfullscreen_exit (setfullscreen m cid true) cid cA hfindA hAfs hfindB
  -- the composite rewrite of the client list preserves the tiled structure
  set M2 : LMon := updClient (setfullscreen m cid true) cid fsLeave with hM2
  set g2 : LClient → LClient := fun c0 =>
    if c0.id = cid then fsLeave (resizeclient m1 (fsEnter c0) m.mx m.my m.mw m.mh)
    else c0 with hg2
  have hflags : ∀ c0 : LClient, (g2 c0).id = c0.id ∧
      (g2 c0).isfloating = c0.isfloating ∧ (g2 c0).tags = c0.tags := by
    intro c0
    rw [hg2]
    simp only []
    by_cases h : c0.id = cid
    · rw [if_pos h]
      refine ⟨?_, ?_, ?_⟩
      · show (resizeclient m1 (fsEnter c0) m.mx m.my m.mw m.mh).id = c0.id
        rw [(resizeclient_flags m1 (fsEnter c0) m.mx m.my m.mw m.mh).1]
        rfl
      · show (resizeclient m1 (fsEnter c0) m.mx m.my m.mw m.mh).oldstate
          = c0.isfloating
        rw [(resizeclient_flags m1 (fsEnter c0) m.mx m.my m.mw m.mh).2.2.2.2.2.2]
        rfl
      · show (resizeclient m1 (fsEnter c0) m.mx m.my m.mw m.mh).tags = c0.tags
        rw [(resizeclient_flags m1 (fsEnter c0) m.mx m.my m.mw m.mh).2.2.1]
        rfl
    · rw [if_neg h]
      exact ⟨rfl, rfl, rfl⟩
  have hM2clients : M2.clients = m.clients.map g2 := by
    rw [hM2, h1]
    show ((((m.clients.map _).map _)).map _) = _
    rw [List.map_map, List.map_map]
    refine List.map_congr_left (fun c0 hc0 => ?_)
    exact composite_step m1 cid m.mx m.my m.mw m.mh c0
  have hts : M2.tagsetActive = m.tagsetActive := by
    rw [hM2, h1]
    rfl
  have hmono : M2.arrangeIsMonocle = m.arrangeIsMonocle := by
    rw [hM2, h1]
    rfl
  have hsole : soleOrMonocle M2 cid = soleOrMonocle m cid :=
    soleOrMonocle_map m M2 g2 cid hflags hts hmono hM2clients
  -- the restored client before the final resizeclient
  have hnbA : noborder m1 (fsEnter c) = false := by
    unfold noborder
    have hA : (fsEnter c).isfullscreen = true := rfl
    rw [hA]
    simp
  have hrectA := resizeclient_rect m1 (fsEnter c) m.mx m.my m.mw m.mh hnbA
  have hBx : (fsLeave cA).x = c.x := by
    show cA.oldx = c.x
    rw [hcA]
    exact hrectA.2.2.2.2.1
  have hBy : (fsLeave cA).y = c.y := by
    show cA.oldy = c.y
    rw [hcA]
    exact hrectA.2.2.2.2.2.1
  have hBw : (fsLeave cA).w = c.w := by
    show cA.oldw = c.w
    rw [hcA]
    exact hrectA.2.2.2.2.2.2.1
  have hBh : (fsLeave cA).h = c.h := by
    show cA.oldh = c.h
    rw [hcA]
    exact hrectA.2.2.2.2.2.2.2
  have hflagsA := resizeclient_flags m1 (fsEnter c) m.mx m.my m.mw m.mh
  have hBbw : (fsLeave cA).bw = c.bw := by
    show cA.oldbw = c.bw
    rw [hcA, hflagsA.2.2.2.2.2.1]
    rfl
  have hBfl : (fsLeave cA).isfloating = c.isfloating := by
    show cA.oldstate = c.isfloating
    rw [hcA, hflagsA.2.2.2.2.2.2]
    rfl
  have hBid : (fsLeave cA).id = cid := by
    show cA.id = cid
    rw [hcA, hflagsA.1]
    exact hcid
  -- the final resizeclient does not trip the border collapse either
  have hnbB : noborder M2 (fsLeave cA) = false := by
    unfold noborder
    rw [hBid, hsole, hnb]
    simp
  have hrectB := resizeclient_rect M2 (fsLeave cA)
    (fsLeave cA).x (fsLeave cA).y (fsLeave cA).w (fsLeave cA).h hnbB
  have hflagsB := resizeclient_flags M2 (fsLeave cA)
    (fsLeave cA).x (fsLeave cA).y (fsLeave cA).w (fsLeave cA).h
  refine ⟨resizeclient M2 (fsLeave cA) (fsLeave cA).x (fsLeave cA).y
    (fsLeave cA).w (fsLeave cA).h, ?_, ?_, ?_, ?_, ?_, ?_, ?_⟩
  · rw [h2]
    unfold resizeclientM
    rw [findClient_updClient _ _ _
      (fun c0 => (resizeclient_flags M2 c0 (fsLeave cA).x (fsLeave cA).y
        (fsLeave cA).w (fsLeave cA).h).1)]
    rw [hM2, findClient_updClient _ _ _ hidF2, hfindA]
    rfl
  · rw [hflagsB.2.1, hBfl]
  · rw [hflagsB.2.2.2.2.1, hBbw]
  · rw [hrectB.1, hBx]
  · rw [hrectB.2.1, hBy]
  · rw [hrectB.2.2.1, hBw]
  · rw [hrectB.2.2.2.1, hBh]

/-- Concrete clients for the C3 witness. -/
def lcl1 : LClient := { id := 1, x := 10, y := 32, w := 500, h := 300, bw := 2 }

/-- The client whose fullscreen state is toggled in the C3 witness. -/
def lcl2 : LClient := { id := 2, x := 520, y := 32, w := 600, h := 400, bw := 2 }

/-- A monitor holding two tiled clients. -/
def lmon2 : LMon := { clients := [lcl1, lcl2] }

/-- Witness for C3 at a concrete two-client monitor. -/
theorem setfullscreen_involution_witness :
    (findClient lmon2 2 = some lcl2 ∧ lcl2.isfullscreen = false ∧
     lcl2.isfloating = false ∧ soleOrMonocle lmon2 2 = false) ∧
    (∃ c2, findClient (setfullscreen (setfullscreen lmon2 2 true) 2 false) 2
        = some c2 ∧
      c2.isfloating = lcl2.isfloating ∧ c2.bw = lcl2.bw ∧
      c2.x = lcl2.x ∧ c2.y = lcl2.y ∧ c2.w = lcl2.w ∧ c2.h = lcl2.h) :=
  ⟨⟨by decide, rfl, rfl, by decide⟩,
   setfullscreen_involution lmon2 2 lcl2 (by decide) rfl rfl (by decide)⟩

/-! ### C5: `getfacts` remainders and extent conservation in `tile` -/

theorem ratTrunc_nonneg (q : ℚ) (hq : 0 ≤ q) : ratTrunc q = ⌊q⌋ := by
  unfold ratTrunc
  rw [if_neg (not_lt.mpr hq)]

theorem u32sub_small {a b : Nat} (hba : b ≤ a) (ha : a < 2 ^ 32) :
    u32sub a b = a - b := by
  unfold u32sub
  have hb : b % 2 ^ 32 = b := Nat.mod_eq_of_lt (lt_of_le_of_lt hba ha)
  rw [hb]
  have h1 : a + 2 ^ 32 - b = (a - b) + 2 ^ 32 := by omega
  rw [h1, Nat.add_mod_right]
  exact Nat.mod_eq_of_lt (by omega)

theorem u32int_small {a : Int} (h0 : 0 ≤ a) (h32 : a < 2 ^ 32) :
    u32int a = a.toNat := by
  unfold u32int
  rw [Int.emod_eq_of_lt h0 (by exact_mod_cast h32)]

/-- One truncating `+=` of a nonnegative float onto a running total that is
a multiple of its floor. -/
theorem addTrunc_step (q : ℚ) (hq : 0 ≤ q) (j : Int) (hj : 0 ≤ j) :
    ratTrunc (((j * ⌊q⌋ : Int) : ℚ) + q) = (j + 1) * ⌊q⌋ := by
  have hf : (0 : Int) ≤ ⌊q⌋ := Int.floor_nonneg.mpr hq
  have hx : (0 : ℚ) ≤ ((j * ⌊q⌋ : Int) : ℚ) + q := by
    have h1 : (0 : Int) ≤ j * ⌊q⌋ := mul_nonneg hj hf
    have h2 : (0 : ℚ) ≤ ((j * ⌊q⌋ : Int) : ℚ) := by exact_mod_cast h1
    linarith
  rw [ratTrunc_nonneg _ hx, Int.floor_int_add]
  ring

/-- The `getfacts` accumulation loop: after `j` iterations the totals are
the per-branch iteration counts times the truncated per-tile share. -/
theorem getfacts_fold (nmaster : Nat) (qm qs : ℚ) (hqm : 0 ≤ qm) (hqs : 0 ≤ qs) :
    ∀ j : Nat,
      (List.range j).foldl
        (fun (tot : Int × Int) (i : Nat) =>
          if i < nmaster then (ratTrunc ((tot.1 : ℚ) + qm), tot.2)
          else (tot.1, ratTrunc ((tot.2 : ℚ) + qs)))
        (0, 0)
      = (((min j nmaster : Nat) : Int) * ⌊qm⌋,
         ((j - min j nmaster : Nat) : Int) * ⌊qs⌋) := by
  intro j
  induction j with
  | zero => simp
  | succ j ih =>
    rw [List.range_succ, List.foldl_append, List.foldl_cons, List.foldl_nil, ih]
    by_cases h : j < nmaster
    · rw [if_pos h]
      dsimp only
      rw [addTrunc_step qm hqm ((min j nmaster : Nat) : Int) (by positivity)]
      rw [show j + 1 - min (j + 1) nmaster = j - min j nmaster from by omega,
          show min (j + 1) nmaster = min j nmaster + 1 from by omega]
      simp only [Prod.mk.injEq]
      refine ⟨?_, trivial⟩
      push_cast
      ring
    · rw [if_neg h]
      dsimp only
      rw [addTrunc_step qs hqs ((j - min j nmaster : Nat) : Int) (by positivity)]
      rw [show j + 1 - min (j + 1) nmaster = (j - min j nmaster) + 1 from by omega,
          show min (j + 1) nmaster = min j nmaster from by omega]
      simp only [Prod.mk.injEq]
      refine ⟨trivial, ?_⟩
      push_cast
      ring

/-- Distributing an extent over `k` tiles, one extra pixel to the first
`r`. -/
theorem slice_sum (d : Int) (r : Nat) :
    ∀ k : Nat,
      ((List.range k).map (fun i => d + (if i < r then (1 : Int) else 0))).sum
        = (k : Int) * d + ((min k r : Nat) : Int) := by
  intro k
  induction k with
  | zero => simp
  | succ k ih =>
    rw [List.range_succ, List.map_append, List.sum_append]
    simp only [List.map_cons, List.map_nil, List.sum_cons, List.sum_nil]
    rw [ih]
    by_cases h : k < r
    · rw [if_pos h]
      have h1 : min (k + 1) r = min k r + 1 := by omega
      rw [h1]
      push_cast
      ring
    · rw [if_neg h]
      have h1 : min (k + 1) r = min k r := by omega
      rw [h1]
      push_cast
      ring

/-- A `tile` slice with an exact integer factor. -/
theorem tileSlice_eval (size : Int) (k : Nat) (rest : Int) (hs : 0 ≤ size)
    (hr0 : 0 ≤ rest) (hr32 : rest < 2 ^ 32) (i : Nat) :
    tileSlice size ((k : Nat) : ℚ) rest i
      = size / (k : Int) + (if i < rest.toNat then 1 else 0) := by
  unfold tileSlice
  rw [u32int_small hr0 hr32]
  congr 1
  rw [ratTrunc_nonneg _ (by positivity), Rat.floor_intCast_div_natCast]

/-- C5: with `n ≥ 1` tiled clients, `nmaster ≥ 1` and nonnegative extents,
`getfacts` returns master factor `k = min(n, nmaster)` and master
remainder `msize - k * floor(msize / k)` (which lies in `[0, k)`), and the
`k` master slices of `tile` — `floor(msize/k)` plus one extra pixel for
exactly the first `mrest` tiles — sum to exactly `msize`; when
`nmaster < n` the stack factor is `n - nmaster` and the stack slices sum
to exactly `ssize`. -/
theorem getfacts_tile_conservation (m : LMon) (msize ssize : Int)
    (hnm : 1 ≤ m.nmaster) (hms : 0 ≤ msize) (hss : 0 ≤ ssize)
    (hn1 : 1 ≤ tiledCount m)
    (hn32 : tiledCount m < 2 ^ 32) (hm32 : m.nmaster < 2 ^ 32) :
    (getfacts m msize ssize).1 = ((min (tiledCount m) m.nmaster : Nat) : ℚ) ∧
    (getfacts m msize ssize).2.2.1
      = msize - ((min (tiledCount m) m.nmaster : Nat) : Int)
          * (msize / ((min (tiledCount m) m.nmaster : Nat) : Int)) ∧
    0 ≤ (getfacts m msize ssize).2.2.1 ∧
    (getfacts m msize ssize).2.2.1 < ((min (tiledCount m) m.nmaster : Nat) : Int) ∧
    ((List.range (min (tiledCount m) m.nmaster)).map
        (tileSlice msize (getfacts m msize ssize).1
          (getfacts m msize ssize).2.2.1)).sum = msize ∧
    (m.nmaster < tiledCount m →
      (getfacts m msize ssize).2.1 = ((tiledCount m - m.nmaster : Nat) : ℚ) ∧
      (getfacts m msize ssize).2.2.2
        = ssize - ((tiledCount m - m.nmaster : Nat) : Int)
            * (ssize / ((tiledCount m - m.nmaster : Nat) : Int)) ∧
      ((List.range (tiledCount m - m.nmaster)).map
          (tileSlice ssize (getfacts m msize ssize).2.1
            (getfacts m msize ssize).2.2.2)).sum = ssize) := by
  have hk1 : 1 ≤ min (tiledCount m) m.nmaster := le_min hn1 hnm
  have hqm : (0 : ℚ) ≤ (msize : ℚ) / ((min (tiledCount m) m.nmaster : Nat) : ℚ) := by
    positivity
  have hqs : (0 : ℚ)
      ≤ (ssize : ℚ) / ((u32sub (tiledCount m) m.nmaster : Nat) : ℚ) := by
    positivity
  have hunfold : getfacts m msize ssize =
      (((min (tiledCount m) m.nmaster : Nat) : ℚ),
       ((u32sub (tiledCount m) m.nmaster : Nat) : ℚ),
       msize - ((min (tiledCount m) m.nmaster : Nat) : Int)
         * ⌊(msize : ℚ) / ((min (tiledCount m) m.nmaster : Nat) : ℚ)⌋,
       ssize - ((tiledCount m - min (tiledCount m) m.nmaster : Nat) : Int)
         * ⌊(ssize : ℚ) / ((u32sub (tiledCount m) m.nmaster : Nat) : ℚ)⌋) := by
    show ((((min (tiledCount m) m.nmaster : Nat) : ℚ)),
        ((u32sub (tiledCount m) m.nmaster : Nat) : ℚ),
        msize - ((List.range (tiledCount m)).foldl _ (0, 0)).1,
        ssize - ((List.range (tiledCount m)).foldl _ (0, 0)).2) = _
    rw [getfacts_fold m.nmaster
      ((msize : ℚ) / ((min (tiledCount m) m.nmaster : Nat) : ℚ))
      ((ssize : ℚ) / ((u32sub (tiledCount m) m.nmaster : Nat) : ℚ))
      hqm hqs (tiledCount m)]
  have hdm : ⌊(msize : ℚ) / ((min (tiledCount m) m.nmaster : Nat) : ℚ)⌋
      = msize / ((min (tiledCount m) m.nmaster : Nat) : Int) :=
    Rat.floor_intCast_div_natCast msize (min (tiledCount m) m.nmaster)
  have hkpos : (0 : Int) < ((min (tiledCount m) m.nmaster : Nat) : Int) := by
    exact_mod_cast hk1
  have hmr : msize - ((min (tiledCount m) m.nmaster : Nat) : Int)
        * (msize / ((min (tiledCount m) m.nmaster : Nat) : Int))
      = msize % ((min (tiledCount m) m.nmaster : Nat) : Int) := by
    have := Int.ediv_add_emod msize ((min (tiledCount m) m.nmaster : Nat) : Int)
    omega
  have hmr0 : 0 ≤ msize % ((min (tiledCount m) m.nmaster : Nat) : Int) :=
    Int.emod_nonneg msize (by omega)
  have hmrk : msize % ((min (tiledCount m) m.nmaster : Nat) : Int)
      < ((min (tiledCount m) m.nmaster : Nat) : Int) :=
    Int.emod_lt_of_pos msize hkpos
  have hk32 : ((min (tiledCount m) m.nmaster : Nat) : Int) < 2 ^ 32 := by
    have h1 : min (tiledCount m) m.nmaster < 2 ^ 32 :=
      lt_of_le_of_lt (min_le_left _ _) hn32
    exact_mod_cast h1
  refine ⟨?_, ?_, ?_, ?_, ?_, ?_⟩
  · rw [hunfold]
  · rw [hunfold]
    show msize - _ * _ = _
    rw [hdm]
  · rw [hunfold]
    show (0 : Int) ≤ msize - _ * _
    rw [hdm, hmr]
    exact hmr0
  · rw [hunfold]
    show msize - _ * _ < _
    rw [hdm, hmr]
    exact hmrk
  · rw [hunfold]
    show ((List.range (min (tiledCount m) m.nmaster)).map
      (tileSlice msize ((min (tiledCount m) m.nmaster : Nat) : ℚ)
        (msize - _ * _))).sum = msize
    rw [hdm, hmr]
    rw [List.map_congr_left (fun i hi =>
      tileSlice_eval msize (min (tiledCount m) m.nmaster)
        (msize % ((min (tiledCount m) m.nmaster : Nat) : Int)) hms hmr0
        (lt_trans hmrk hk32) i)]
    rw [slice_sum]
    have h1 : min (min (tiledCount m) m.nmaster)
        (msize % ((min (tiledCount m) m.nmaster : Nat) : Int)).toNat
        = (msize % ((min (tiledCount m) m.nmaster : Nat) : Int)).toNat := by
      have h2 : (msize % ((min (tiledCount m) m.nmaster : Nat) : Int)).toNat
          < min (tiledCount m) m.nmaster := by
        omega
      omega
    rw [h1]
    have h3 : ((((msize % ((min (tiledCount m) m.nmaster : Nat) : Int)).toNat
        : Nat)) : Int) = msize % ((min (tiledCount m) m.nmaster : Nat) : Int) :=
      Int.toNat_of_nonneg hmr0
    rw [h3]
    have := Int.ediv_add_emod msize ((min (tiledCount m) m.nmaster : Nat) : Int)
    omega
  · intro hlt
    have hsub : u32sub (tiledCount m) m.nmaster = tiledCount m - m.nmaster :=
      u32sub_small (le_of_lt hlt) hn32
    have hmin : min (tiledCount m) m.nmaster = m.nmaster := by omega
    have hs1 : 1 ≤ tiledCount m - m.nmaster := by omega
    have hspos : (0 : Int) < ((tiledCount m - m.nmaster : Nat) : Int) := by
      exact_mod_cast hs1
    have hds : ⌊(ssize : ℚ) / ((tiledCount m - m.nmaster : Nat) : ℚ)⌋
        = ssize / ((tiledCount m - m.nmaster : Nat) : Int) :=
      Rat.floor_intCast_div_natCast ssize (tiledCount m - m.nmaster)
    have hsr : ssize - ((tiledCount m - m.nmaster : Nat) : Int)
          * (ssize / ((tiledCount m - m.nmaster : Nat) : Int))
        = ssize % ((tiledCount m - m.nmaster : Nat) : Int) := by
      have := Int.ediv_add_emod ssize ((tiledCount m - m.nmaster : Nat) : Int)
      omega
    have hsr0 : 0 ≤ ssize % ((tiledCount m - m.nmaster : Nat) : Int) :=
      Int.emod_nonneg ssize (by omega)
    have hsrk : ssize % ((tiledCount m - m.nmaster : Nat) : Int)
        < ((tiledCount m - m.nmaster : Nat) : Int) :=
      Int.emod_lt_of_pos ssize hspos
    have hs32 : ((tiledCount m - m.nmaster : Nat) : Int) < 2 ^ 32 := by
      have h1 : tiledCount m - m.nmaster < 2 ^ 32 := by omega
      exact_mod_cast h1
    refine ⟨?_, ?_, ?_⟩
    · rw [hunfold]
      show ((u32sub (tiledCount m) m.nmaster : Nat) : ℚ) = _
      rw [hsub]
    · rw [hunfold]
      show ssize - _ * _ = _
      rw [hsub, hmin, hds]
    · rw [hunfold]
      show ((List.range (tiledCount m - m.nmaster)).map
        (tileSlice ssize ((u32sub (tiledCount m) m.nmaster : Nat) : ℚ)
          (ssize - _ * _))).sum = ssize
      rw [hsub, hmin, hds, hsr]
      rw [List.map_congr_left (fun i hi =>
        tileSlice_eval ssize (tiledCount m - m.nmaster)
          (ssize % ((tiledCount m - m.nmaster : Nat) : Int)) hss hsr0
          (lt_trans hsrk hs32) i)]
      rw [slice_sum]
      have h1 : min (tiledCount m - m.nmaster)
          (ssize % ((tiledCount m - m.nmaster : Nat) : Int)).toNat
          = (ssize % ((tiledCount m - m.nmaster : Nat) : Int)).toNat := by
        omega
      rw [h1]
      have h3 : ((((ssize % ((tiledCount m - m.nmaster : Nat) : Int)).toNat
          : Nat)) : Int) = ssize % ((tiledCount m - m.nmaster : Nat) : Int) :=
        Int.toNat_of_nonneg hsr0
      rw [h3]
      have := Int.ediv_add_emod ssize ((tiledCount m - m.nmaster : Nat) : Int)
      omega

/-- Witness for C5 on the two-client monitor, master extent 500. -/
theorem getfacts_tile_conservation_witness :
    (1 ≤ lmon2.nmaster) ∧ ((0 : Int) ≤ 500) ∧ ((0 : Int) ≤ 300) ∧
    (1 ≤ tiledCount lmon2) ∧ (tiledCount lmon2 < 2 ^ 32) ∧
    (lmon2.nmaster < 2 ^ 32) ∧
    (((List.range (min (tiledCount lmon2) lmon2.nmaster)).map
        (tileSlice 500 (getfacts lmon2 500 300).1
          (getfacts lmon2 500 300).2.2.1)).sum = 500) :=
  ⟨by decide, by decide, by decide, by decide, by decide, by decide,
   (getfacts_tile_conservation lmon2 500 300 (by decide) (by decide) (by decide)
     (by decide) (by decide) (by decide)).2.2.2.2.1⟩

/-! ### C9: layouts resize only the `nexttiled` chain -/

/-- The floating client the C9 witness tracks. -/
def lclFloat : LClient :=
  { id := 9, x := 40, y := 50, w := 200, h := 100, bw := 2, isfloating := true }

/-- A monitor holding a floating client between two tiled ones. -/
def lmon9 : LMon := { clients := [lcl1, lclFloat, lcl2] }

/-- Clients failing the chain predicate are left untouched, at their
position, by the shared layout iteration scheme. -/
theorem tiledFold_get_of_not {σ : Type} (p : LClient → Bool)
    (step : σ → LClient → LClient × σ) :
    ∀ (l : List LClient) (s : σ) (i : Nat) (c : LClient),
      l[i]? = some c → p c = false →
      (tiledFold p step s l)[i]? = some c := by
  intro l
  induction l with
  | nil => intro s i c h1 _; simp at h1
  | cons hd tl ih =>
    intro s i c h1 h2
    cases i with
    | zero =>
      simp only [List.getElem?_cons_zero, Option.some.injEq] at h1
      subst h1
      unfold tiledFold
      rw [if_neg (by simp [h2])]
      simp
    | succ j =>
      simp only [List.getElem?_cons_succ] at h1
      unfold tiledFold
      split
      · simpa using ih _ j c h1 h2
      · simpa using ih s j c h1 h2

/-- C9: each of the twelve layout arrange functions rewrites only the
clients of the `nexttiled` chain, so every floating client and every
client invisible on the active tagset keeps its exact record (rectangle
included) and its position in the client list. -/
theorem layouts_frame (m : LMon) (i : Nat) (c : LClient)
    (h1 : m.clients[i]? = some c)
    (h2 : c.isfloating = true ∨ visible m c = false) :
    (tile m).clients[i]? = some c ∧
    (monocle m).clients[i]? = some c ∧
    (deck m).clients[i]? = some c ∧
    (dwindle m).clients[i]? = some c ∧
    (spiral m).clients[i]? = some c ∧
    (grid m).clients[i]? = some c ∧
    (horizgrid m).clients[i]? = some c ∧
    (gaplessgrid m).clients[i]? = some c ∧
    (bstack m).clients[i]? = some c ∧
    (bstackhoriz m).clients[i]? = some c ∧
    (centeredmaster m).clients[i]? = some c ∧
    (centeredfloatingmaster m).clients[i]? = some c := by
  have hnt : isTiled m c = false := by
    unfold isTiled
    rcases h2 with h | h
    · rw [h]; rfl
    · rw [h]; simp
  have hfib : ∀ s, (fibonacci m s).clients[i]? = some c := by
    intro s
    unfold fibonacci
    repeat' split
    all_goals first
      | exact h1
      | exact tiledFold_get_of_not _ _ _ _ _ _ h1 hnt
  refine ⟨?_, ?_, ?_, hfib true, hfib false, ?_, ?_, ?_, ?_, ?_, ?_, ?_⟩ <;>
  · simp only [tile, monocle, deck, grid, horizgrid, gaplessgrid, bstack,
      bstackhoriz, centeredmaster, centeredfloatingmaster]
    repeat' split
    all_goals first
      | exact h1
      | exact tiledFold_get_of_not _ _ _ _ _ _ h1 hnt

/-- Witness for C9: the floating client at index 1 of a three-client
monitor is untouched by all twelve layouts. -/
theorem layouts_frame_witness :
    lmon9.clients[1]? = some lclFloat ∧ lclFloat.isfloating = true ∧
    ((tile lmon9).clients[1]? = some lclFloat ∧
     (monocle lmon9).clients[1]? = some lclFloat ∧
     (deck lmon9).clients[1]? = some lclFloat ∧
     (dwindle lmon9).clients[1]? = some lclFloat ∧
     (spiral lmon9).clients[1]? = some lclFloat ∧
     (grid lmon9).clients[1]? = some lclFloat ∧
     (horizgrid lmon9).clients[1]? = some lclFloat ∧
     (gaplessgrid lmon9).clients[1]? = some lclFloat ∧
     (bstack lmon9).clients[1]? = some lclFloat ∧
     (bstackhoriz lmon9).clients[1]? = some lclFloat ∧
     (centeredmaster lmon9).clients[1]? = some lclFloat ∧
     (centeredfloatingmaster lmon9).clients[1]? = some lclFloat) :=
  ⟨by decide, rfl, layouts_frame lmon9 1 lclFloat (by decide) (Or.inl rfl)⟩

/-! ### C2/C4: the swallow/unswallow state machine

Clients are kept in an id-indexed store (`recs`), mirroring the heap of
`Client` structs: `swallowing` holds the id of the snapshot record the C
pointer `p->swallowing` points at, and a detached record stays in the
store exactly as the C struct outlives its list membership.  Monitor
list structure (`clients`, `stack`, `sel`) carries ids, and the X server
side is three window-keyed maps: `mapped` (Map/UnmapWindow), `wmstate`
(the `WM_STATE` property written by `setclientstate`), and `xgeom`
(`XMoveResizeWindow`/`XConfigureWindow`).  `updatetitle`, `arrange`,
`configure`, `focus` and `updateclientlist` touch only title/bar/layout
bookkeeping outside this state and are the display-level calls of the
source. -/

/-- `WithdrawnState` of Xutil.h. -/
def WithdrawnState : Int := 0

/-- `NormalState` of Xutil.h. -/
def NormalState : Int := 1

/-- The fields of `struct Client` the swallow machinery reads or writes
(dynamd.c 95-110). -/
structure SClient where
  win : Nat := 0
  x : Int := 0
  y : Int := 0
  w : Int := 0
  h : Int := 0
  oldx : Int := 0
  oldy : Int := 0
  oldw : Int := 0
  oldh : Int := 0
  bw : Int := 0
  oldbw : Int := 0
  tags : Nat := 1
  isfloating : Bool := false
  oldstate : Bool := false
  isfullscreen : Bool := false
  isterminal : Bool := false
  noswallow : Bool := false
  mon : Nat := 0
  swallowing : Option Nat := none
  deriving DecidableEq

/-- The per-monitor state the swallow machinery reads or writes:
id-valued `clients`/`stack`/`sel`, the active tagset, the screen
rectangle used by the fullscreen enter branch, and whether the selected
arrange function is `&monocle` (for `resizeclient`'s border collapse). -/
structure MonRec where
  clients : List Nat := []
  stack : List Nat := []
  sel : Option Nat := none
  tagset : Nat := 1
  arrangeIsMonocle : Bool := false
  mx : Int := 0
  my : Int := 0
  mw : Int := 0
  mh : Int := 0
  deriving DecidableEq

/-- Client store, monitor store and the modeled X server state. -/
structure World where
  recs : Nat → SClient
  mons : Nat → MonRec
  mapped : Nat → Bool
  wmstate : Nat → Int
  xgeom : Nat → Int × Int × Int × Int
  netfullscreen : Nat → Bool

/-- `ISVISIBLE(C)` (`C->tags & C->mon->tagset[C->mon->seltags]`). -/
def isVisibleW (wo : World) (i : Nat) : Bool :=
  ((wo.recs i).tags &&& (wo.mons (wo.recs i).mon).tagset) != 0

/-- `!c->isfloating && ISVISIBLE(c)`, the `nexttiled` chain predicate. -/
def isTiledW (wo : World) (i : Nat) : Bool :=
  !(wo.recs i).isfloating && isVisibleW wo i

/-- The id list after the first occurrence of `cid` (`c->next` as seen
from the monitor's list). -/
def restAfterW : List Nat → Nat → List Nat
  | [], _ => []
  | a :: tl, cid => if a = cid then tl else restAfterW tl cid

/-- `detach` (dynamd.c 1622-1628): unlink the client from its monitor's
client list. -/
def detachW (wo : World) (cid : Nat) : World :=
  let mid := (wo.recs cid).mon
  let mr := wo.mons mid
  { wo with mons :=
      Function.update wo.mons mid ({ mr with clients := mr.clients.erase cid }) }

/-- `detachstack` (dynamd.c 1631-1642): unlink from the focus stack and,
if the client was selected, select the first visible stack entry. -/
def detachstackW (wo : World) (cid : Nat) : World :=
  let mid := (wo.recs cid).mon
  let mr := wo.mons mid
  let stack' := mr.stack.erase cid
  let sel' := if mr.sel = some cid
              then stack'.find? (fun i => isVisibleW wo i)
              else mr.sel
  { wo with mons :=
      Function.update wo.mons mid ({ mr with stack := stack', sel := sel' }) }

/-- `setclientstate` (dynamd.c 2625-2630): write `WM_STATE` on the
client's current window. -/
def setclientstateW (wo : World) (cid : Nat) (st : Int) : World :=
  { wo with wmstate := Function.update wo.wmstate ((wo.recs cid).win) st }

/-- The border-collapse condition of `resizeclient` (dynamd.c 2452-2454):
the client is the sole `nexttiled` client of its monitor, or the monitor
arranges with `&monocle`. -/
def soleOrMonocleW (wo : World) (cid : Nat) : Bool :=
  let mid := (wo.recs cid).mon
  (((wo.mons mid).clients.find? (isTiledW wo) == some cid)
    && ((restAfterW (wo.mons mid).clients cid).find? (isTiledW wo)).isNone)
  || (wo.mons mid).arrangeIsMonocle

/-- `resizeclient` (dynamd.c 2443-2463) on the world state: shift the
rectangle into the `old*` fields, store the new one, inflate by the
border width when the collapse condition fires, and push the resulting
geometry to the X window (`XConfigureWindow`; `configure`/`XSync` are
event-level). -/
def resizeclientW (wo : World) (cid : Nat) (x y wd ht : Int) : World :=
  let c := wo.recs cid
  let c1 := { c with oldx := c.x, x := x, oldy := c.y, y := y,
                     oldw := c.w, w := wd, oldh := c.h, h := ht }
  let c2 := { c1 with w := wd + 2 * c.bw, h := ht + 2 * c.bw }
  if soleOrMonocleW wo cid && !c.isfullscreen && !c.isfloating then
    { wo with
      recs := Function.update wo.recs cid c2,
      xgeom := Function.update wo.xgeom c.win (x, y, wd + 2 * c.bw, ht + 2 * c.bw) }
  else
    { wo with
      recs := Function.update wo.recs cid c1,
      xgeom := Function.update wo.xgeom c.win (x, y, wd, ht) }

/-- `setfullscreen` (dynamd.c 2687-2716) on the world state; the
`_NET_WM_STATE` property is the `netfullscreen` map, `XRaiseWindow` and
the trailing `arrange` are display-level. -/
def setfullscreenW (wo : World) (cid : Nat) (fullscreen : Bool) : World :=
  let c := wo.recs cid
  let center := { c with isfullscreen := true, oldstate := c.isfloating,
                         oldbw := c.bw, bw := 0, isfloating := true }
  let cexit := { c with isfullscreen := false, isfloating := c.oldstate,
                        bw := c.oldbw, x := c.oldx, y := c.oldy,
                        w := c.oldw, h := c.oldh }
  if fullscreen && !c.isfullscreen then
    let w1 := { wo with
      netfullscreen := Function.update wo.netfullscreen c.win true,
      recs := Function.update wo.recs cid center }
    resizeclientW w1 cid (wo.mons c.mon).mx (wo.mons c.mon).my
      (wo.mons c.mon).mw (wo.mons c.mon).mh
  else if !fullscreen && c.isfullscreen then
    let w1 := { wo with
      netfullscreen := Function.update wo.netfullscreen c.win false,
      recs := Function.update wo.recs cid cexit }
    resizeclientW w1 cid c.oldx c.oldy c.oldw c.oldh
  else wo

/-- The effect part of `swallow` (dynamd.c 1227-1243), run once the
guard has passed: detach the child from both lists, withdraw it, unmap
the terminal's window, link the snapshot, move the child onto the
terminal's monitor, exchange the window handles, and push the terminal's
rectangle to its (new) window.  `updatetitle`, `arrange`, `configure`
and `updateclientlist` are display-level. -/
def swallowBody (wo : World) (pid cid : Nat) : World :=
  let w1 := detachW wo cid
  let w2 := detachstackW w1 cid
  let w3 := setclientstateW w2 cid WithdrawnState
  let w4 :=
    { w3 with mapped := Function.update w3.mapped ((w3.recs pid).win) false }
  let p5 := w4.recs pid
  let w5 :=
    { w4 with recs := Function.update w4.recs pid ({ p5 with swallowing := some cid }) }
  let c6 := w5.recs cid
  let w6 :=
    { w5 with recs := Function.update w5.recs cid ({ c6 with mon := (w5.recs pid).mon }) }
  let tmp := (w6.recs pid).win
  let p7 := w6.recs pid
  let w7 :=
    { w6 with recs := Function.update w6.recs pid ({ p7 with win := (w6.recs cid).win }) }
  let c8 := w7.recs cid
  let w8 :=
    { w7 with recs := Function.update w7.recs cid ({ c8 with win := tmp }) }
  let xg : Nat → Int × Int × Int × Int :=
    Function.update w8.xgeom ((w8.recs pid).win)
      ((w8.recs pid).x, (w8.recs pid).y, (w8.recs pid).w, (w8.recs pid).h)
  { w8 with xgeom := xg }

/-- `swallow` (dynamd.c 1222-1244).  The first guard returns on
`noswallow || isterminal`; the second guard
(`c->noswallow && !1 && c->isfloating`) contains the constant `!1 == 0`
and is dead code, so it never returns. -/
def swallowW (wo : World) (pid cid : Nat) : World :=
  if (wo.recs cid).noswallow || (wo.recs cid).isterminal then wo
  else swallowBody wo pid cid

/-- The body of `unswallow` (dynamd.c 1248-1261) once the snapshot id is
known: restore the window handle from the snapshot record, drop the
snapshot link (`free` is allocation-level), leave fullscreen, map the
window, push the stored rectangle to it, and set `NormalState`.
`updatetitle`, the two `arrange`s and `focus` are display-level. -/
def unswallowBody (wo : World) (cid sid : Nat) : World :=
  let c1 := wo.recs cid
  let w1 :=
    { wo with recs := Function.update wo.recs cid ({ c1 with win := (wo.recs sid).win }) }
  let c2 := w1.recs cid
  let w2 :=
    { w1 with recs := Function.update w1.recs cid ({ c2 with swallowing := none }) }
  let w3 := setfullscreenW w2 cid false
  let w4 :=
    { w3 with mapped := Function.update w3.mapped ((w3.recs cid).win) true }
  let xg : Nat → Int × Int × Int × Int :=
    Function.update w4.xgeom ((w4.recs cid).win)
      ((w4.recs cid).x, (w4.recs cid).y, (w4.recs cid).w, (w4.recs cid).h)
  let w5 := { w4 with xgeom := xg }
  setclientstateW w5 cid NormalState

/-- `unswallow` (dynamd.c 1247-1262); it dereferences `c->swallowing`
unconditionally, so a missing snapshot is the undefined (`none`) case. -/
def unswallowW (wo : World) (cid : Nat) : Option World :=
  match (wo.recs cid).swallowing with
  | none => none
  | some sid => some (unswallowBody wo cid sid)

/-- The terminal of the concrete swallow scenario. -/
def sclP : SClient :=
  { win := 10, x := 5, y := 6, w := 700, h := 500, bw := 2, tags := 1,
    isterminal := true, mon := 0 }

/-- The swallowed child of the concrete swallow scenario. -/
def sclC : SClient :=
  { win := 11, x := 0, y := 0, w := 400, h := 300, tags := 1, mon := 0 }

/-- A world with the terminal at id 1 and the child at id 2, both on
monitor 0, the child selected. -/
def world0 : World :=
  { recs := fun i => if i = 1 then sclP else if i = 2 then sclC else { },
    mons := fun _ => { clients := [2, 1], stack := [2, 1], sel := some 2,
                       tagset := 1 },
    mapped := fun _ => true,
    wmstate := fun _ => NormalState,
    xgeom := fun _ => (0, 0, 0, 0),
    netfullscreen := fun _ => false }

/-- `resizeclient` never touches the window handle or the snapshot link
of any record, nor the mapping, `WM_STATE` or monitor stores. -/
theorem resizeclientW_pres (wo : World) (cid : Nat) (x y wd ht : Int) :
    (resizeclientW wo cid x y wd ht).mapped = wo.mapped ∧
    (resizeclientW wo cid x y wd ht).wmstate = wo.wmstate ∧
    (resizeclientW wo cid x y wd ht).mons = wo.mons ∧
    ∀ i, ((resizeclientW wo cid x y wd ht).recs i).win = (wo.recs i).win ∧
      ((resizeclientW wo cid x y wd ht).recs i).swallowing
        = (wo.recs i).swallowing := by
  unfold resizeclientW
  dsimp only
  split <;> refine ⟨rfl, rfl, rfl, fun i => ?_⟩ <;> by_cases h : i = cid
  · subst h; simp
  · simp [Function.update_noteq h]
  · subst h; simp
  · simp [Function.update_noteq h]

/-- `setfullscreen` never touches the window handle or the snapshot link
of any record, nor the mapping, `WM_STATE` or monitor stores. -/
theorem setfullscreenW_pres (wo : World) (cid : Nat) (fs : Bool) :
    (setfullscreenW wo cid fs).mapped = wo.mapped ∧
    (setfullscreenW wo cid fs).wmstate = wo.wmstate ∧
    (setfullscreenW wo cid fs).mons = wo.mons ∧
    ∀ i, ((setfullscreenW wo cid fs).recs i).win = (wo.recs i).win ∧
      ((setfullscreenW wo cid fs).recs i).swallowing
        = (wo.recs i).swallowing := by
  unfold setfullscreenW
  dsimp only
  split
  · refine ⟨(resizeclientW_pres _ _ _ _ _ _).1,
      (resizeclientW_pres _ _ _ _ _ _).2.1,
      (resizeclientW_pres _ _ _ _ _ _).2.2.1, fun i => ?_⟩
    refine ⟨((resizeclientW_pres _ _ _ _ _ _).2.2.2 i).1.trans ?_,
      ((resizeclientW_pres _ _ _ _ _ _).2.2.2 i).2.trans ?_⟩
    · by_cases h : i = cid
      · subst h; simp
      · simp [Function.update_noteq h]
    · by_cases h : i = cid
      · subst h; simp
      · simp [Function.update_noteq h]
  · split
    · refine ⟨(resizeclientW_pres _ _ _ _ _ _).1,
        (resizeclientW_pres _ _ _ _ _ _).2.1,
        (resizeclientW_pres _ _ _ _ _ _).2.2.1, fun i => ?_⟩
      refine ⟨((resizeclientW_pres _ _ _ _ _ _).2.2.2 i).1.trans ?_,
        ((resizeclientW_pres _ _ _ _ _ _).2.2.2 i).2.trans ?_⟩
      · by_cases h : i = cid
        · subst h; simp
        · simp [Function.update_noteq h]
      · by_cases h : i = cid
        · subst h; simp
        · simp [Function.update_noteq h]
    · exact ⟨rfl, rfl, rfl, fun i => ⟨rfl, rfl⟩⟩

/-- After the guarded body of `swallow`, the terminal record carries the
snapshot link and the child's window, and the child record carries the
terminal's window and monitor. -/
theorem swallowBody_recs (wo : World) (pid cid : Nat) (hpc : pid ≠ cid) :
    (swallowBody wo pid cid).recs pid =
      { wo.recs pid with swallowing := some cid, win := (wo.recs cid).win } ∧
    (swallowBody wo pid cid).recs cid =
      { wo.recs cid with mon := (wo.recs pid).mon, win := (wo.recs pid).win } := by
  unfold swallowBody detachW detachstackW setclientstateW
  constructor <;>
    simp [Function.update_same, Function.update_noteq hpc,
      Function.update_noteq (Ne.symm hpc)]

/-- The final state of `unswallow`'s body: window restored from the
snapshot record, snapshot link cleared, window mapped, geometry pushed
as the stored rectangle, `WM_STATE` normal. -/
theorem unswallowBody_facts (wo : World) (cid sid : Nat) :
    ((unswallowBody wo cid sid).recs cid).win = (wo.recs sid).win ∧
    ((unswallowBody wo cid sid).recs cid).swallowing = none ∧
    (unswallowBody wo cid sid).mapped
      (((unswallowBody wo cid sid).recs cid).win) = true ∧
    (unswallowBody wo cid sid).xgeom (((unswallowBody wo cid sid).recs cid).win)
      = (((unswallowBody wo cid sid).recs cid).x,
         ((unswallowBody wo cid sid).recs cid).y,
         ((unswallowBody wo cid sid).recs cid).w,
         ((unswallowBody wo cid sid).recs cid).h) ∧
    (unswallowBody wo cid sid).wmstate
      (((unswallowBody wo cid sid).recs cid).win) = NormalState := by
  refine ⟨?_, ?_, ?_, ?_, ?_⟩
  · unfold unswallowBody setclientstateW
    dsimp only
    rw [((setfullscreenW_pres _ cid false).2.2.2 cid).1]
    simp [Function.update_same]
  · unfold unswallowBody setclientstateW
    dsimp only
    rw [((setfullscreenW_pres _ cid false).2.2.2 cid).2]
    simp [Function.update_same]
  · unfold unswallowBody setclientstateW
    dsimp only
    simp [Function.update_same]
  · unfold unswallowBody setclientstateW
    dsimp only
    simp [Function.update_same]
  · unfold unswallowBody setclientstateW
    dsimp only
    simp [Function.update_same]

/-- C4: `swallow(terminal, child)` returns immediately, changing
nothing, exactly when the child has `noswallow` or `isterminal` set;
otherwise it changes the state: the child leaves the client list and
focus stack of its monitor, its window is withdrawn, the terminal's
window is unmapped, the two window handles are exchanged, and the
terminal's `swallowing` snapshot is the child. -/
theorem swallow_noop_iff (wo : World) (pid cid : Nat)
    (hpc : pid ≠ cid)
    (hwin : (wo.recs pid).win ≠ (wo.recs cid).win)
    (hclN : ((wo.mons ((wo.recs cid).mon)).clients).Nodup)
    (hstN : ((wo.mons ((wo.recs cid).mon)).stack).Nodup) :
    (((wo.recs cid).noswallow || (wo.recs cid).isterminal) = true →
      swallowW wo pid cid = wo) ∧
    (((wo.recs cid).noswallow || (wo.recs cid).isterminal) = false →
      swallowW wo pid cid ≠ wo ∧
      cid ∉ ((swallowW wo pid cid).mons ((wo.recs cid).mon)).clients ∧
      cid ∉ ((swallowW wo pid cid).mons ((wo.recs cid).mon)).stack ∧
      (swallowW wo pid cid).wmstate ((wo.recs cid).win) = WithdrawnState ∧
      (swallowW wo pid cid).mapped ((wo.recs pid).win) = false ∧
      ((swallowW wo pid cid).recs pid).win = (wo.recs cid).win ∧
      ((swallowW wo pid cid).recs cid).win = (wo.recs pid).win ∧
      ((swallowW wo pid cid).recs pid).swallowing = some cid) := by
  constructor
  · intro hg
    simp [swallowW, hg]
  · intro hg
    have hbody : swallowW wo pid cid = swallowBody wo pid cid := by
      simp [swallowW, hg]
    obtain ⟨hrp, hrc⟩ := swallowBody_recs wo pid cid hpc
    rw [hbody]
    have hcl : ((swallowBody wo pid cid).mons ((wo.recs cid).mon)).clients
        = ((wo.mons ((wo.recs cid).mon)).clients).erase cid := by
      unfold swallowBody detachW detachstackW setclientstateW
      simp [Function.update_same]
    have hst : ((swallowBody wo pid cid).mons ((wo.recs cid).mon)).stack
        = ((wo.mons ((wo.recs cid).mon)).stack).erase cid := by
      unfold swallowBody detachW detachstackW setclientstateW
      simp [Function.update_same]
    refine ⟨?_, ?_, ?_, ?_, ?_, ?_, ?_, ?_⟩
    · intro he
      have h1 : (swallowBody wo pid cid).recs pid = wo.recs pid := by rw [he]
      rw [hrp] at h1
      have h2 := congrArg SClient.win h1
      simp at h2
      exact hwin h2.symm
    · rw [hcl]
      intro hmem
      exact ((hclN.mem_erase_iff).mp hmem).1 rfl
    · rw [hst]
      intro hmem
      exact ((hstN.mem_erase_iff).mp hmem).1 rfl
    · unfold swallowBody detachW detachstackW setclientstateW
      simp [Function.update_same]
    · unfold swallowBody detachW detachstackW setclientstateW
      simp [Function.update_same]
    · rw [hrp]
    · rw [hrc]
    · rw [hrp]

/-- Witness for C4 in the concrete scenario: a swallowable child. -/
theorem swallow_noop_iff_witness :
    (1 : Nat) ≠ 2 ∧
    (world0.recs 1).win ≠ (world0.recs 2).win ∧
    ((world0.mons ((world0.recs 2).mon)).clients).Nodup ∧
    ((world0.mons ((world0.recs 2).mon)).stack).Nodup ∧
    ((world0.recs 2).noswallow || (world0.recs 2).isterminal) = false ∧
    (swallowW world0 1 2 ≠ world0 ∧
     2 ∉ ((swallowW world0 1 2).mons ((world0.recs 2).mon)).clients ∧
     2 ∉ ((swallowW world0 1 2).mons ((world0.recs 2).mon)).stack ∧
     (swallowW world0 1 2).wmstate ((world0.recs 2).win) = WithdrawnState ∧
     (swallowW world0 1 2).mapped ((world0.recs 1).win) = false ∧
     ((swallowW world0 1 2).recs 1).win = (world0.recs 2).win ∧
     ((swallowW world0 1 2).recs 2).win = (world0.recs 1).win ∧
     ((swallowW world0 1 2).recs 1).swallowing = some 2) :=
  ⟨by decide, by decide, by decide, by decide, by decide,
   (swallow_noop_iff world0 1 2 (by decide) (by decide) (by decide)
     (by decide)).2 (by decide)⟩

/-- C2: swallowing a child with neither `noswallow` nor `isterminal`
and then unswallowing the terminal restores the terminal's pre-swallow
window handle, clears the snapshot link, and leaves that window mapped,
with its X geometry equal to the stored rectangle and `WM_STATE` set to
`NormalState`. -/
theorem swallow_unswallow_roundtrip (wo : World) (pid cid : Nat)
    (hpc : pid ≠ cid)
    (hns : (wo.recs cid).noswallow = false)
    (hit : (wo.recs cid).isterminal = false) :
    ∃ w2, unswallowW (swallowW wo pid cid) pid = some w2 ∧
      (w2.recs pid).win = (wo.recs pid).win ∧
      (w2.recs pid).swallowing = none ∧
      w2.mapped ((w2.recs pid).win) = true ∧
      w2.xgeom ((w2.recs pid).win)
        = ((w2.recs pid).x, (w2.recs pid).y, (w2.recs pid).w, (w2.recs pid).h) ∧
      w2.wmstate ((w2.recs pid).win) = NormalState := by
  have hg : ((wo.recs cid).noswallow || (wo.recs cid).isterminal) = false := by
    rw [hns, hit]; rfl
  have hbody : swallowW wo pid cid = swallowBody wo pid cid := by
    simp [swallowW, hg]
  obtain ⟨hrp, hrc⟩ := swallowBody_recs wo pid cid hpc
  have hfacts := unswallowBody_facts (swallowBody wo pid cid) pid cid
  refine ⟨unswallowBody (swallowBody wo pid cid) pid cid, ?_, ?_,
    hfacts.2.1, hfacts.2.2.1, hfacts.2.2.2.1, hfacts.2.2.2.2⟩
  · rw [hbody]
    unfold unswallowW
    rw [hrp]
  · rw [hfacts.1, hrc]

/-- Witness for C2 in the concrete scenario. -/
theorem swallow_unswallow_roundtrip_witness :
    (1 : Nat) ≠ 2 ∧
    (world0.recs 2).noswallow = false ∧
    (world0.recs 2).isterminal = false ∧
    (∃ w2, unswallowW (swallowW world0 1 2) 1 = some w2 ∧
      (w2.recs 1).win = (world0.recs 1).win ∧
      (w2.recs 1).swallowing = none ∧
      w2.mapped ((w2.recs 1).win) = true ∧
      w2.xgeom ((w2.recs 1).win)
        = ((w2.recs 1).x, (w2.recs 1).y, (w2.recs 1).w, (w2.recs 1).h) ∧
      w2.wmstate ((w2.recs 1).win) = NormalState) :=
  ⟨by decide, by decide, by decide,
   swallow_unswallow_roundtrip world0 1 2 (by decide) (by decide) (by decide)⟩

end Dynamd
